import Mathlib

/-!
Shallow embedding of the entity-component runtime in `src/ecs.rs`
(crate `minigame`), together with theorems checking the natural-language
specification against it.

Modelling conventions:
* Rust `Vec<T>` is a Lean `List T`; `Vec::push` appends at the end,
  `Vec::pop` removes the last element.
* `EntityId = u16` and `EntityGeneration = u64` become `Nat` with explicit
  `% 2 ^ 16` / `% 2 ^ 64` at the operations where the Rust code can wrap
  (release-mode semantics of `as` casts and of integer arithmetic).
* Operations that can panic in Rust (vector indexing out of bounds,
  `Option::unwrap`, `Result::expect`, a `RefCell` borrow violation) return
  `none` in an outer `Option` layer; `some` carries the non-panicking
  result, which is an `Except` whenever the Rust function returns `Result`.
* `RefCell`'s dynamic borrow discipline (from the Rust standard library) is
  modelled by an explicit borrow-flag state, see `BorrowFlag` below.
-/

/-- `Entity` from ecs.rs: a pair of index and generation. -/
structure Entity where
  id : Nat
  generation : Nat
deriving DecidableEq, Repr

/-- A handle that the Rust type system can represent: `id : u16`,
`generation : u64`. -/
def Entity.Rep (e : Entity) : Prop :=
  e.id < 2 ^ 16 ∧ e.generation < 2 ^ 64

instance (e : Entity) : Decidable e.Rep := by
  unfold Entity.Rep; infer_instance

/-- `EntityError` from ecs.rs. -/
inductive EntityError where
  | OutOfBounds
  | InvalidEntity
deriving DecidableEq, Repr

/-- `EntityComponentError` from ecs.rs. -/
inductive EntityComponentError where
  | InvalidEntity
  | UnregisteredComponent
deriving DecidableEq, Repr

instance {e a : Type} [DecidableEq e] [DecidableEq a] : DecidableEq (Except e a) := fun x y =>
  match x, y with
  | Except.ok v, Except.ok w =>
      if h : v = w then isTrue (by rw [h]) else isFalse (fun hc => h (Except.ok.inj hc))
  | Except.ok _, Except.error _ => isFalse (fun hc => Except.noConfusion hc)
  | Except.error _, Except.ok _ => isFalse (fun hc => Except.noConfusion hc)
  | Except.error v, Except.error w =>
      if h : v = w then isTrue (by rw [h]) else isFalse (fun hc => h (Except.error.inj hc))

/-- `EntityAllocatorEntry` from ecs.rs. -/
structure EntityAllocatorEntry where
  is_alive : Bool
  generation : Nat
deriving DecidableEq, Repr

/-- `EntityAllocator` from ecs.rs. -/
structure EntityAllocator where
  entries : List EntityAllocatorEntry
  available_entity_ids : List Nat
deriving DecidableEq, Repr

namespace EntityAllocator

/-- `EntityAllocator::new`. -/
def new : EntityAllocator := { entries := [], available_entity_ids := [] }

/-- `EntityAllocator::allocate`.  The recycled branch indexes
`self.entries[reusable_entity_id]`, which panics when out of range (`none`).
The fresh branch computes `self.entries.len() as EntityId - 1`: the cast
truncates to 16 bits and the subtraction wraps, which for a non-empty
entries vector is `(len - 1) % 2 ^ 16`.  The generation increment is `u64`
arithmetic, hence the `% 2 ^ 64`. -/
def allocate (a : EntityAllocator) : Option (Entity × EntityAllocator) :=
  match a.available_entity_ids.getLast? with
  | some reusable_entity_id =>
      match a.entries[reusable_entity_id]? with
      | some entry =>
          let entry' : EntityAllocatorEntry :=
            { is_alive := true, generation := (entry.generation + 1) % 2 ^ 64 }
          some (⟨reusable_entity_id, entry'.generation⟩,
            { entries := a.entries.set reusable_entity_id entry',
              available_entity_ids := a.available_entity_ids.dropLast })
      | none => none
  | none =>
      let entries' := a.entries ++ [{ is_alive := true, generation := 0 }]
      some (⟨(entries'.length - 1) % 2 ^ 16, 0⟩,
        { entries := entries', available_entity_ids := a.available_entity_ids })

/-- `EntityAllocator::deallocate`.  Note: no liveness or generation check;
any in-bounds index is marked dead and pushed onto the free list. -/
def deallocate (a : EntityAllocator) (entity : Entity) :
    Except EntityError EntityAllocator :=
  match a.entries[entity.id]? with
  | some entry =>
      Except.ok
        { entries := a.entries.set entity.id { entry with is_alive := false },
          available_entity_ids := a.available_entity_ids ++ [entity.id] }
  | none => Except.error EntityError.OutOfBounds

/-- `EntityAllocator::is_alive`. -/
def is_alive (a : EntityAllocator) (entity : Entity) : Bool :=
  match a.entries[entity.id]? with
  | some entry => entry.is_alive
  | none => false

/-- `EntityAllocator::is_valid`. -/
def is_valid (a : EntityAllocator) (entity : Entity) : Bool :=
  match a.entries[entity.id]? with
  | some entry => entry.is_alive && entry.generation == entity.generation
  | none => false

/-- `EntityAllocator::get_num_entries`. -/
def get_num_entries (a : EntityAllocator) : Nat :=
  a.entries.length

end EntityAllocator

/-- Allocator states reachable through the public interface, starting from
`EntityAllocator::new`, by allocating and by deallocating a handle that is
currently valid (the handles a well-behaved caller owns). -/
inductive EntityAllocator.Reach : EntityAllocator → Prop where
  | init : Reach EntityAllocator.new
  | alloc {a e a'} : Reach a → a.allocate = some (e, a') → Reach a'
  | dealloc {a e a'} : Reach a → a.is_valid e = true →
      a.deallocate e = Except.ok a' → Reach a'

/-- `ComponentPool<T>` from ecs.rs: sparse array from entity index to dense
slot, plus the two parallel dense arrays. -/
structure ComponentPool (V : Type) where
  all_entities : List (Option Nat)
  entities_with_component : List Entity
  components : List V
deriving DecidableEq, Repr

namespace ComponentPool

/-- `ComponentPool::register_entity` (the `ComponentStorage` impl): grow the
sparse array with `None` up to `index + 1` when too short; otherwise leave
the pool untouched (in particular, a recycled index keeps its old slot). -/
def register_entity (p : ComponentPool V) (entity : Entity) : ComponentPool V :=
  if p.all_entities.length ≤ entity.id then
    { p with all_entities :=
        p.all_entities ++ List.replicate (entity.id + 1 - p.all_entities.length) none }
  else p

end ComponentPool

/-- `World` from ecs.rs.  The `ComponentMap` (a `HashMap` from the `TypeId`
of `ComponentPool<T>` to the boxed pool) is modelled as a function from an
abstract component-type index `κ` to an optional pool; `V k` is the Rust
component type named by `k`. -/
structure World (κ : Type) (V : κ → Type) where
  entity_allocator : EntityAllocator
  component_pools : (k : κ) → Option (ComponentPool (V k))

namespace World

variable {κ : Type} {V : κ → Type} [DecidableEq κ]

/-- `World::new`. -/
def new (κ : Type) (V : κ → Type) : World κ V :=
  { entity_allocator := EntityAllocator.new, component_pools := fun _ => none }

/-- `World::create_entity`: allocate, then `register_entity` in every
registered pool.  `none` when the allocator's recycled-index lookup panics. -/
def create_entity (w : World κ V) : Option (Entity × World κ V) :=
  (w.entity_allocator.allocate).map (fun ea =>
    (ea.1,
      { entity_allocator := ea.2,
        component_pools := fun k => (w.component_pools k).map (·.register_entity ea.1) }))

/-- `World::destroy_entity`: deallocate; an error is only logged, the world
is returned unchanged in that case. -/
def destroy_entity (w : World κ V) (entity : Entity) : World κ V :=
  match w.entity_allocator.deallocate entity with
  | Except.ok a' => { w with entity_allocator := a' }
  | Except.error _ => w

/-- `World::register_component::<T>`: insert a fresh pool for `k`, its
sparse array sized to the allocator's entry count. -/
def register_component (w : World κ V) (k : κ) : World κ V :=
  let pool : ComponentPool (V k) :=
    { all_entities := List.replicate w.entity_allocator.get_num_entries none,
      entities_with_component := [], components := [] }
  { w with component_pools := Function.update w.component_pools k (some pool) }

/-- `World::get_component::<T>`: validity gate, pool lookup, then the direct
(panicking) indexings `all_entities[entity.id]` and `components[dense]`.
The outer `Option` is the panic layer, the `Except` mirrors the Rust
`Result`, and the innermost `Option` is "object lacks this component". -/
def get_component (w : World κ V) (k : κ) (entity : Entity) :
    Option (Except EntityComponentError (Option (V k))) :=
  if w.entity_allocator.is_valid entity then
    match w.component_pools k with
    | none => some (Except.error EntityComponentError.UnregisteredComponent)
    | some pool =>
        match pool.all_entities[entity.id]? with
        | none => none
        | some none => some (Except.ok none)
        | some (some dense_data_index) =>
            match pool.components[dense_data_index]? with
            | none => none
            | some v => some (Except.ok (some v))
  else some (Except.error EntityComponentError.InvalidEntity)

/-- `World::get_component_mut::<T>`: identical control flow to
`get_component` at the value level (the `RefMut` accessor is modelled by
the value it dereferences to). -/
def get_component_mut (w : World κ V) (k : κ) (entity : Entity) :
    Option (Except EntityComponentError (Option (V k))) :=
  if w.entity_allocator.is_valid entity then
    match w.component_pools k with
    | none => some (Except.error EntityComponentError.UnregisteredComponent)
    | some pool =>
        match pool.all_entities[entity.id]? with
        | none => none
        | some none => some (Except.ok none)
        | some (some dense_data_index) =>
            match pool.components[dense_data_index]? with
            | none => none
            | some v => some (Except.ok (some v))
  else some (Except.error EntityComponentError.InvalidEntity)

/-- `World::add_component::<T>`: validity gate, pool lookup, the panicking
sparse indexing, then either the logged no-op (slot already set) or the
append to both dense arrays plus the sparse update to the new last dense
position (`entities_with_component.len() - 1` measured after the push). -/
def add_component (w : World κ V) (k : κ) (entity : Entity) (component : V k) :
    Option (Except EntityComponentError (World κ V)) :=
  if w.entity_allocator.is_valid entity then
    match w.component_pools k with
    | none => some (Except.error EntityComponentError.UnregisteredComponent)
    | some pool =>
        match pool.all_entities[entity.id]? with
        | none => none
        | some (some _) => some (Except.ok w)
        | some none =>
            let entities' := pool.entities_with_component ++ [entity]
            let pool' : ComponentPool (V k) :=
              { all_entities := pool.all_entities.set entity.id (some (entities'.length - 1)),
                entities_with_component := entities',
                components := pool.components ++ [component] }
            some (Except.ok
              { w with
                component_pools := Function.update w.component_pools k (some pool') })
  else some (Except.error EntityComponentError.InvalidEntity)

end World

namespace World

variable {κ : Type} {V : κ → Type} [DecidableEq κ]

/-- `<(&A, &B) as Query>::execute` from ecs.rs: two `get_component` calls,
each `expect`ed (an `Err` panics, hence outer `none`); the `?` on the inner
`Option` filters the entity out (`some none`). -/
def execute2 (w : World κ V) (kA kB : κ) (entity : Entity) :
    Option (Option (V kA × V kB)) :=
  match w.get_component kA entity with
  | some (Except.ok (some a)) =>
      match w.get_component kB entity with
      | some (Except.ok (some b)) => some (some (a, b))
      | some (Except.ok none) => some none
      | _ => none
  | some (Except.ok none) => some none
  | _ => none

/-- `<(&A, &B) as Query>::execute_mut`: same control flow through
`get_component_mut`. -/
def execute2_mut (w : World κ V) (kA kB : κ) (entity : Entity) :
    Option (Option (V kA × V kB)) :=
  match w.get_component_mut kA entity with
  | some (Except.ok (some a)) =>
      match w.get_component_mut kB entity with
      | some (Except.ok (some b)) => some (some (a, b))
      | some (Except.ok none) => some none
      | _ => none
  | some (Except.ok none) => some none
  | _ => none

/-- The driving candidate list chosen by `World::query` for a two-component
query: `min_by_key` over `[(lenA, listA), (lenB, listB)]` picks the first
minimum, so the A pool wins ties; `none` models the `unwrap` panic on an
unregistered pool. -/
def query2Candidates (w : World κ V) (kA kB : κ) : Option (List Entity) :=
  match w.component_pools kA, w.component_pools kB with
  | some pA, some pB =>
      if pA.entities_with_component.length ≤ pB.entities_with_component.length then
        some pA.entities_with_component
      else
        some pB.entities_with_component
  | _, _ => none

/-- Eager consumption of Rust's `filter_map` where the closure itself can
panic: outer `none` aborts (panic), `some none` skips, `some (some b)`
keeps the pair. -/
def runFilterMap (f : Entity → Option (Option β)) : List Entity → Option (List (Entity × β))
  | [] => some []
  | e :: rest =>
      match f e with
      | none => none
      | some none => runFilterMap f rest
      | some (some b) => (runFilterMap f rest).map (fun l => (e, b) :: l)

/-- `World::query::<(&A, &B)>`, fully consumed: iterate the driving pool's
dense handle list, filtering through `execute2`. -/
def query2 (w : World κ V) (kA kB : κ) : Option (List (Entity × (V kA × V kB))) :=
  (w.query2Candidates kA kB).bind (runFilterMap (w.execute2 kA kB))

/-- `World::query_mut::<(&A, &B)>`, fully consumed. -/
def query2_mut (w : World κ V) (kA kB : κ) : Option (List (Entity × (V kA × V kB))) :=
  (w.query2Candidates kA kB).bind (runFilterMap (w.execute2_mut kA kB))

/-- Modelled from the spec: `World::remove_component::<T>` is called by
`collision_cleanup_system` in src/system.rs but its definition is absent
from the sources.  Spec §4.4: "locate the dense slot for the handle, swap
it with the last dense slot (classic swap-remove) to keep the dense arrays
contiguous, fix up the sparse entry of whichever object was moved into the
vacated slot, shrink the dense arrays by one, and clear the sparse slot for
the removed handle."  Validity gate, pool lookup and error taxonomy follow
the sibling operations (`add_component`/`get_component`); a handle that
lacks the component is left as a successful no-op (the spec assigns it no
error). -/
def remove_component (w : World κ V) (k : κ) (entity : Entity) :
    Option (Except EntityComponentError (World κ V)) :=
  if w.entity_allocator.is_valid entity then
    match w.component_pools k with
    | none => some (Except.error EntityComponentError.UnregisteredComponent)
    | some pool =>
        match pool.all_entities[entity.id]? with
        | none => none
        | some none => some (Except.ok w)
        | some (some dense_data_index) =>
            match pool.entities_with_component.getLast?, pool.components.getLast? with
            | some moved_entity, some moved_component =>
                let pool' : ComponentPool (V k) :=
                  { all_entities :=
                      (pool.all_entities.set moved_entity.id (some dense_data_index)).set
                        entity.id none,
                    entities_with_component :=
                      (pool.entities_with_component.set dense_data_index moved_entity).dropLast,
                    components :=
                      (pool.components.set dense_data_index moved_component).dropLast }
                some (Except.ok
                  { w with
                    component_pools := Function.update w.component_pools k (some pool') })
            | _, _ => none
  else some (Except.error EntityComponentError.InvalidEntity)

end World

/-- The dynamic borrow flag of a `std::cell::RefCell` (standard-library
semantics): at any moment a cell is unborrowed, shared-borrowed by `n + 1`
readers, or exclusively borrowed by one writer. -/
inductive BorrowFlag where
  | unused
  | reading (n : Nat)
  | writing
deriving DecidableEq, Repr

namespace BorrowFlag

/-- `RefCell::borrow`: succeeds unless a writer is outstanding (in which
case Rust panics, modelled by `none`). -/
def tryBorrow : BorrowFlag → Option BorrowFlag
  | unused => some (reading 0)
  | reading n => some (reading (n + 1))
  | writing => none

/-- `RefCell::borrow_mut`: succeeds only from the unborrowed state; any
outstanding reader or writer makes it panic (`none`). -/
def tryBorrowMut : BorrowFlag → Option BorrowFlag
  | unused => some writing
  | reading _ => none
  | writing => none

end BorrowFlag

namespace World

variable {κ : Type} {V : κ → Type} [DecidableEq κ]

/-- `World::get_component_mut` with the `RefCell` borrow discipline made
explicit.  `flags k` is the borrow state of pool `k`'s cell.  The Rust
function checks validity first, then `ComponentMap::get_mut` runs
`cell.borrow_mut()` — which panics (`none`) if any accessor to that pool is
still outstanding — before the sparse slot is even consulted. -/
def get_component_mut_flagged (w : World κ V) (flags : κ → BorrowFlag) (k : κ)
    (entity : Entity) : Option (Except EntityComponentError (Option (V k))) :=
  if w.entity_allocator.is_valid entity then
    match w.component_pools k with
    | none => some (Except.error EntityComponentError.UnregisteredComponent)
    | some pool =>
        match (flags k).tryBorrowMut with
        | none => none
        | some _ =>
            match pool.all_entities[entity.id]? with
            | none => none
            | some none => some (Except.ok none)
            | some (some dense_data_index) =>
                match pool.components[dense_data_index]? with
                | none => none
                | some v => some (Except.ok (some v))
  else some (Except.error EntityComponentError.InvalidEntity)

end World

/-! ### Generic list helpers -/

/-- Writing back the value already stored at an index leaves a list
unchanged. -/
theorem list_set_self {α : Type} :
    ∀ {l : List α} {i : Nat} {x : α}, l[i]? = some x → l.set i x = l
  | [], _, _, h => by simp at h
  | _ :: _, 0, _, h => by
      simp only [List.getElem?_cons_zero, Option.some_inj] at h
      simp [List.set, h]
  | a :: l, i + 1, x, h => by
      simp only [List.getElem?_cons_succ] at h
      simp [List.set, list_set_self h]

/-- `dropLast` keeps every index below the shortened length. -/
theorem list_getElem?_dropLast {α : Type} (l : List α) (i : Nat) (h : i + 1 < l.length) :
    l.dropLast[i]? = l[i]? := by
  rw [List.dropLast_eq_take, List.getElem?_take_of_lt (by omega)]

/-- An index with a stored value is in bounds. -/
theorem lt_length_of_getElem? {α : Type} {l : List α} {i : Nat} {x : α}
    (h : l[i]? = some x) : i < l.length := by
  by_contra hc
  rw [List.getElem?_eq_none (by omega)] at h
  simp at h

/-! ### Well-formedness invariants -/

/-- Allocator invariant: every recyclable index is in bounds (it was pushed
by a `deallocate` whose entry lookup succeeded, and `entries` never
shrinks). -/
def EntityAllocator.WF (a : EntityAllocator) : Prop :=
  ∀ id ∈ a.available_entity_ids, id < a.entries.length

instance (a : EntityAllocator) : Decidable a.WF := by
  unfold EntityAllocator.WF; infer_instance

/-- Pool invariant relative to the allocator's entry count: the sparse
array spans every issued index, the dense arrays are parallel, a set sparse
slot names a dense entry carrying that index back, and every dense entry's
index points back at its dense slot. -/
def ComponentPool.WF {V : Type} (numEntries : Nat) (p : ComponentPool V) : Prop :=
  p.all_entities.length = numEntries ∧
  p.components.length = p.entities_with_component.length ∧
  (∀ i d, p.all_entities[i]? = some (some d) →
    ∃ e : Entity, p.entities_with_component[d]? = some e ∧ e.id = i) ∧
  (∀ d, ∀ e : Entity, p.entities_with_component[d]? = some e →
    p.all_entities[e.id]? = some (some d))

/-- World invariant: the allocator invariant plus the pool invariant for
every registered pool. -/
def World.WF {κ : Type} {V : κ → Type} (w : World κ V) : Prop :=
  w.entity_allocator.WF ∧
  ∀ k p, w.component_pools k = some p → p.WF w.entity_allocator.get_num_entries

/-! ### Small facts about validity -/

/-- Two handles that are simultaneously valid and share an index are the
same handle: validity pins the generation to the stored one. -/
theorem EntityAllocator.eq_of_valid_of_id_eq {a : EntityAllocator} {e e' : Entity}
    (h : a.is_valid e = true) (h' : a.is_valid e' = true) (hid : e.id = e'.id) :
    e = e' := by
  unfold EntityAllocator.is_valid at h h'
  rw [hid] at h
  cases hget : a.entries[e'.id]? with
  | none => rw [hget] at h; simp at h
  | some entry =>
      rw [hget] at h h'
      simp only [Bool.and_eq_true, beq_iff_eq] at h h'
      cases e; cases e'
      simp_all

/-- A valid handle's index is in bounds. -/
theorem EntityAllocator.lt_of_valid {a : EntityAllocator} {e : Entity}
    (h : a.is_valid e = true) : e.id < a.entries.length := by
  unfold EntityAllocator.is_valid at h
  cases hget : a.entries[e.id]? with
  | none => rw [hget] at h; simp at h
  | some entry => exact lt_length_of_getElem? hget

/-- Validity after overwriting an allocator entry at the handle's own
index: the result is the entry's liveness flag when generations agree. -/
theorem EntityAllocator.isValid_entries_set {l : List EntityAllocatorEntry}
    {avail : List Nat} {i : Nat} (h : i < l.length) (b : Bool) (g : Nat) :
    EntityAllocator.is_valid ⟨l.set i ⟨b, g⟩, avail⟩ ⟨i, g⟩ = b := by
  unfold EntityAllocator.is_valid
  rw [show (⟨l.set i ⟨b, g⟩, avail⟩ : EntityAllocator).entries = l.set i ⟨b, g⟩ from rfl,
    List.getElem?_set_eq_of_lt _ h]
  simp

/-- A handle whose generation differs from the stored one is invalid. -/
theorem EntityAllocator.isValid_entries_set_ne {l : List EntityAllocatorEntry}
    {avail : List Nat} {i : Nat} (h : i < l.length) (b : Bool) {g g' : Nat}
    (hne : g ≠ g') :
    EntityAllocator.is_valid ⟨l.set i ⟨b, g⟩, avail⟩ ⟨i, g'⟩ = false := by
  unfold EntityAllocator.is_valid
  rw [show (⟨l.set i ⟨b, g⟩, avail⟩ : EntityAllocator).entries = l.set i ⟨b, g⟩ from rfl,
    List.getElem?_set_eq_of_lt _ h]
  simp [hne]

/-- C2 (amended): in every well-formed allocator state with fewer than
`2 ^ 16` issued indices, a freshly returned handle `e1` is valid; right
after `deallocate(e1)` it is invalid; the next `allocate` returns `e1`'s
index with generation `e1.generation + 1` (provided that sum stays below
`2 ^ 64`), and the new handle is valid while `e1` stays invalid. -/
theorem C2_round_trip (a : EntityAllocator) (hWF : a.WF)
    (hlen : a.entries.length < 2 ^ 16)
    (e1 : Entity) (a1 : EntityAllocator)
    (halloc : a.allocate = some (e1, a1))
    (hgen : e1.generation + 1 < 2 ^ 64) :
    a1.is_valid e1 = true ∧
    ∃ a2, a1.deallocate e1 = Except.ok a2 ∧
      a2.is_valid e1 = false ∧
      ∃ e2 a3, a2.allocate = some (e2, a3) ∧
        e2.id = e1.id ∧ e2.generation = e1.generation + 1 ∧
        a3.is_valid e2 = true ∧ a3.is_valid e1 = false := by
  unfold EntityAllocator.allocate at halloc
  cases hlast : a.available_entity_ids.getLast? with
  | some rid =>
      rw [hlast] at halloc
      dsimp only at halloc
      have hrid : rid < a.entries.length :=
        hWF rid (List.mem_of_mem_getLast? hlast)
      cases hget : a.entries[rid]? with
      | none => rw [hget] at halloc; simp at halloc
      | some entry =>
          rw [hget] at halloc
          simp only [Option.some_inj, Prod.mk.injEq] at halloc
          obtain ⟨he1, ha1⟩ := halloc
          subst he1; subst ha1
          set g' := (entry.generation + 1) % 2 ^ 64 with hg'
          have hrid' : rid < (a.entries.set rid ⟨true, g'⟩).length := by
            rw [List.length_set]; exact hrid
          have hv1 : (a.entries.set rid ⟨true, g'⟩)[rid]? =
              some ⟨true, g'⟩ := List.getElem?_set_eq_of_lt _ hrid
          refine ⟨?_, ?_⟩
          · simp [EntityAllocator.is_valid, hv1]
          · refine ⟨⟨(a.entries.set rid ⟨true, g'⟩).set rid ⟨false, g'⟩,
                a.available_entity_ids.dropLast ++ [rid]⟩, ?_, ?_, ?_⟩
            · simp only [EntityAllocator.deallocate, hv1]
            · have hv3 : (a.entries.set rid ⟨false, g'⟩)[rid]? = some ⟨false, g'⟩ :=
                List.getElem?_set_eq_of_lt _ hrid
              simp [EntityAllocator.is_valid, List.set_set, hv3]
            · have hv2 : ((a.entries.set rid ⟨true, g'⟩).set rid ⟨false, g'⟩)[rid]? =
                  some ⟨false, g'⟩ := List.getElem?_set_eq_of_lt _ hrid'
              have hmod : (g' + 1) % 2 ^ 64 = g' + 1 := Nat.mod_eq_of_lt hgen
              have hv4 : (a.entries.set rid ⟨true, (g' + 1) % 2 ^ 64⟩)[rid]? =
                  some ⟨true, (g' + 1) % 2 ^ 64⟩ := List.getElem?_set_eq_of_lt _ hrid
              refine ⟨⟨rid, (g' + 1) % 2 ^ 64⟩,
                ⟨((a.entries.set rid ⟨true, g'⟩).set rid ⟨false, g'⟩).set rid
                    ⟨true, (g' + 1) % 2 ^ 64⟩,
                  a.available_entity_ids.dropLast⟩,
                ?_, rfl, hmod, ?_, ?_⟩
              · simp only [EntityAllocator.allocate, List.getLast?_concat, hv2,
                  List.dropLast_concat]
              · exact EntityAllocator.isValid_entries_set
                  (by simp only [List.length_set]; exact hrid) true ((g' + 1) % 2 ^ 64)
              · refine EntityAllocator.isValid_entries_set_ne
                  (by simp only [List.length_set]; exact hrid) true (fun hc => ?_)
                rw [hmod] at hc
                omega
  | none =>
      rw [hlast] at halloc
      dsimp only at halloc
      simp only [Option.some_inj, Prod.mk.injEq] at halloc
      obtain ⟨he1, ha1⟩ := halloc
      have hlen1 : (a.entries ++ [({ is_alive := true, generation := 0 } : EntityAllocatorEntry)]).length - 1
          = a.entries.length := by simp
      rw [hlen1, Nat.mod_eq_of_lt hlen] at he1
      subst he1; subst ha1
      set L := a.entries.length with hL
      have hv1 : (a.entries ++ [({ is_alive := true, generation := 0 } : EntityAllocatorEntry)])[L]? =
          some { is_alive := true, generation := 0 } := List.getElem?_concat_length _ _
      have hlt : L < (a.entries ++ [({ is_alive := true, generation := 0 } : EntityAllocatorEntry)]).length := by
        simp
      refine ⟨?_, ?_⟩
      · simp [EntityAllocator.is_valid, hv1]
      · refine ⟨⟨(a.entries ++ [({ is_alive := true, generation := 0 } :
                EntityAllocatorEntry)]).set L ⟨false, 0⟩,
            a.available_entity_ids ++ [L]⟩, ?_, ?_, ?_⟩
        · simp only [EntityAllocator.deallocate, hv1]
        · simp [EntityAllocator.is_valid, List.getElem?_set_eq_of_lt _ hlt]
        · have hlt' : L < ((a.entries ++ [({ is_alive := true, generation := 0 } : EntityAllocatorEntry)]).set L
              ⟨false, 0⟩).length := by
            simp only [List.length_set]; exact hlt
          have hv2 : ((a.entries ++ [({ is_alive := true, generation := 0 } : EntityAllocatorEntry)]).set L
              ⟨false, 0⟩)[L]? = some ⟨false, 0⟩ := List.getElem?_set_eq_of_lt _ hlt
          refine ⟨⟨L, 1 % 2 ^ 64⟩,
            ⟨((a.entries ++ [({ is_alive := true, generation := 0 } :
                  EntityAllocatorEntry)]).set L ⟨false, 0⟩).set L ⟨true, 1 % 2 ^ 64⟩,
              a.available_entity_ids⟩,
            ?_, rfl, by norm_num, ?_, ?_⟩
          · simp only [EntityAllocator.allocate, List.getLast?_concat, hv2,
              List.dropLast_concat]
          · simp [EntityAllocator.is_valid, List.getElem?_set_eq_of_lt _ hlt']
          · simp only [EntityAllocator.is_valid, List.getElem?_set_eq_of_lt _ hlt']
            norm_num

/-- Witness for `C2_round_trip` at the empty allocator. -/
theorem C2_round_trip_witness :
    EntityAllocator.new.WF ∧
    EntityAllocator.new.entries.length < 2 ^ 16 ∧
    EntityAllocator.new.allocate = some (⟨0, 0⟩, ⟨[⟨true, 0⟩], []⟩) ∧
    (0 : Nat) + 1 < 2 ^ 64 ∧
    (EntityAllocator.is_valid ⟨[⟨true, 0⟩], []⟩ ⟨0, 0⟩ = true ∧
      ∃ a2, EntityAllocator.deallocate ⟨[⟨true, 0⟩], []⟩ ⟨0, 0⟩ = Except.ok a2 ∧
        a2.is_valid ⟨0, 0⟩ = false ∧
        ∃ e2 a3, a2.allocate = some (e2, a3) ∧
          e2.id = (⟨0, 0⟩ : Entity).id ∧
          e2.generation = (⟨0, 0⟩ : Entity).generation + 1 ∧
          a3.is_valid e2 = true ∧ a3.is_valid ⟨0, 0⟩ = false) :=
  ⟨by decide, by decide, rfl, by decide,
    C2_round_trip EntityAllocator.new (by decide) (by decide) ⟨0, 0⟩
      ⟨[⟨true, 0⟩], []⟩ rfl (by decide)⟩

/-- With an empty free list, `allocate` takes the fresh-append branch. -/
theorem EntityAllocator.allocate_of_empty (a : EntityAllocator)
    (h : a.available_entity_ids = []) :
    a.allocate = some (⟨(a.entries.length + 1 - 1) % 2 ^ 16, 0⟩,
      ⟨a.entries ++ [⟨true, 0⟩], a.available_entity_ids⟩) := by
  unfold EntityAllocator.allocate
  rw [h]
  simp

/-- A handle whose generation differs from the stored entry's is invalid. -/
theorem EntityAllocator.is_valid_eq_false_of_gen_ne {a : EntityAllocator}
    {e : Entity} {entry : EntityAllocatorEntry}
    (hget : a.entries[e.id]? = some entry) (hne : entry.generation ≠ e.generation) :
    a.is_valid e = false := by
  unfold EntityAllocator.is_valid
  rw [hget]
  simp [hne]

/-- Repeated fresh allocation (proof scaffolding for exercising the
allocator on long runs of `allocate`). -/
def freshAllocN : Nat → EntityAllocator → EntityAllocator
  | 0, a => a
  | n + 1, a =>
      match a.allocate with
      | some (_, a') => freshAllocN n a'
      | none => a

/-- With an empty free list, `n` allocations append `n` fresh live entries,
keep the free list empty, and stay within reachable states. -/
theorem freshAllocN_spec : ∀ (n : Nat) (a : EntityAllocator),
    a.available_entity_ids = [] →
    (freshAllocN n a).entries = a.entries ++ List.replicate n ⟨true, 0⟩ ∧
    (freshAllocN n a).available_entity_ids = [] ∧
    (EntityAllocator.Reach a → EntityAllocator.Reach (freshAllocN n a))
  | 0, a, h => by simp [freshAllocN, h]
  | n + 1, a, h => by
      have halloc := a.allocate_of_empty h
      have hstep : freshAllocN (n + 1) a =
          freshAllocN n ⟨a.entries ++ [⟨true, 0⟩], a.available_entity_ids⟩ := by
        simp only [freshAllocN]
        rw [halloc]
      obtain ⟨he, ha', hr⟩ :=
        freshAllocN_spec n ⟨a.entries ++ [⟨true, 0⟩], a.available_entity_ids⟩ h
      refine ⟨?_, ?_, ?_⟩
      · rw [hstep, he]
        simp [List.replicate_succ]
      · rw [hstep]; exact ha'
      · intro hra
        rw [hstep]
        exact hr (EntityAllocator.Reach.alloc hra halloc)

/-- The reachable allocator state exhibiting the 16-bit index truncation:
entry 0 is alive at generation 1, and 65535 further fresh entries fill the
table up to `2 ^ 16` entries. -/
def cexC2State : EntityAllocator :=
  freshAllocN 65535 ⟨[⟨true, 1⟩], []⟩

/-- Any allocator state shaped like `cexC2State` mishandles the next fresh
allocation: the returned handle has index 0 at generation 0 while entry 0
stores generation 1. -/
theorem cexC2_shape_breaks (G : EntityAllocator)
    (hGe : G.entries = [⟨true, 1⟩] ++ List.replicate 65535 ⟨true, 0⟩)
    (hGa : G.available_entity_ids = []) :
    ∃ e1 a1, G.allocate = some (e1, a1) ∧ a1.is_valid e1 = false := by
  have hlen : G.entries.length = 65536 := by
    rw [hGe, List.length_append, List.length_replicate]
    rfl
  refine ⟨⟨0, 0⟩, ⟨G.entries ++ [⟨true, 0⟩], G.available_entity_ids⟩, ?_, ?_⟩
  · rw [EntityAllocator.allocate_of_empty _ hGa, hlen]
    rfl
  · have h0 : (G.entries ++ [({ is_alive := true, generation := 0 } :
        EntityAllocatorEntry)])[(0 : Nat)]? = some ⟨true, 1⟩ := by
      rw [List.getElem?_append_left (by omega), hGe, List.singleton_append,
        List.getElem?_cons_zero]
    exact EntityAllocator.is_valid_eq_false_of_gen_ne h0 (by decide)

/-- C2 is false as stated: in the reachable state `cexC2State` (obtained by
allocate; deallocate; allocate; then 65535 fresh allocations), the next
`allocate` truncates `entries.len() as u16` and hands out index 0 at
generation 0, a handle that `is_valid` immediately rejects because entry 0
is alive at generation 1. -/
theorem C2_counterexample :
    EntityAllocator.Reach cexC2State ∧
    ∃ e1 a1, cexC2State.allocate = some (e1, a1) ∧ a1.is_valid e1 = false := by
  have h3 : EntityAllocator.Reach (⟨[⟨true, 1⟩], []⟩ : EntityAllocator) := by
    have r1 := EntityAllocator.Reach.alloc EntityAllocator.Reach.init
      (show EntityAllocator.new.allocate = some (⟨0, 0⟩, ⟨[⟨true, 0⟩], []⟩) from rfl)
    have r2 := EntityAllocator.Reach.dealloc r1
      (show EntityAllocator.is_valid ⟨[⟨true, 0⟩], []⟩ ⟨0, 0⟩ = true from rfl)
      (show EntityAllocator.deallocate ⟨[⟨true, 0⟩], []⟩ ⟨0, 0⟩ =
        Except.ok ⟨[⟨false, 0⟩], [0]⟩ from rfl)
    exact EntityAllocator.Reach.alloc r2
      (show EntityAllocator.allocate ⟨[⟨false, 0⟩], [0]⟩ =
        some (⟨0, 1⟩, ⟨[⟨true, 1⟩], []⟩) from rfl)
  obtain ⟨he, ha, hr⟩ := freshAllocN_spec 65535 ⟨[⟨true, 1⟩], []⟩ rfl
  exact ⟨hr h3, cexC2_shape_breaks cexC2State he ha⟩

/-- C7 is wrong about the code: `deallocate` checks only that the index is
in bounds, never liveness or generation.  At the failing input — allocator
with entry 0 alive at generation 1 (index 0 was reused) and the stale
handle (0, 0) — `destroy_entity` silently succeeds (nothing is logged),
marks entry 0 dead and re-pushes index 0 onto the free list, so the index's
current live occupant (0, 1) stops being valid and the allocator state
changes. -/
theorem C7_destroy_stale_kills_occupant :
    EntityAllocator.is_valid ⟨[⟨true, 1⟩], []⟩ ⟨0, 1⟩ = true ∧
    EntityAllocator.is_valid ⟨[⟨true, 1⟩], []⟩ ⟨0, 0⟩ = false ∧
    (World.destroy_entity (⟨⟨[⟨true, 1⟩], []⟩, fun _ => none⟩ :
        World Unit (fun _ => Nat)) ⟨0, 0⟩).entity_allocator =
      ⟨[⟨false, 1⟩], [0]⟩ ∧
    (World.destroy_entity (⟨⟨[⟨true, 1⟩], []⟩, fun _ => none⟩ :
        World Unit (fun _ => Nat)) ⟨0, 0⟩).entity_allocator.is_valid ⟨0, 1⟩ = false := by
  refine ⟨rfl, rfl, ?_, ?_⟩ <;> decide

/-- C8 is false as stated: deallocating the already-dead index 0 a second
time succeeds but does not leave the allocator unchanged — the free list
gains a duplicate entry, and the next two allocations then hand out index 0
twice (generations 1 and 2) where a single deallocation would hand out
index 0 and then a fresh index 1. -/
theorem C8_counterexample :
    EntityAllocator.deallocate ⟨[⟨false, 0⟩], [0]⟩ ⟨0, 0⟩ =
      Except.ok ⟨[⟨false, 0⟩], [0, 0]⟩ ∧
    (⟨[⟨false, 0⟩], [0, 0]⟩ : EntityAllocator) ≠ ⟨[⟨false, 0⟩], [0]⟩ ∧
    EntityAllocator.allocate ⟨[⟨false, 0⟩], [0, 0]⟩ =
      some (⟨0, 1⟩, ⟨[⟨true, 1⟩], [0]⟩) ∧
    EntityAllocator.allocate ⟨[⟨true, 1⟩], [0]⟩ =
      some (⟨0, 2⟩, ⟨[⟨true, 2⟩], []⟩) ∧
    EntityAllocator.allocate ⟨[⟨false, 0⟩], []⟩ =
      some (⟨1, 0⟩, ⟨[⟨false, 0⟩, ⟨true, 0⟩], []⟩) := by
  refine ⟨?_, ?_, ?_, ?_, ?_⟩ <;> decide

/-- C8 (amended): deallocating a handle whose entry is already dead
succeeds (`Ok`) and leaves the per-index entries unchanged, but it pushes
the index onto the free list again, so the free list — and therefore the
behaviour of subsequent allocations — differs from a single deallocation. -/
theorem C8_deallocate_dead (a : EntityAllocator) (e : Entity)
    (entry : EntityAllocatorEntry) (hget : a.entries[e.id]? = some entry)
    (hdead : entry.is_alive = false) :
    a.deallocate e = Except.ok ⟨a.entries, a.available_entity_ids ++ [e.id]⟩ := by
  unfold EntityAllocator.deallocate
  rw [hget]
  dsimp only
  have hent : ({ entry with is_alive := false } : EntityAllocatorEntry) = entry := by
    cases entry
    simp_all
  rw [hent, list_set_self hget]

/-- Witness for `C8_deallocate_dead` on a one-entry allocator whose only
index is dead. -/
theorem C8_deallocate_dead_witness :
    (⟨[⟨false, 0⟩], [0]⟩ : EntityAllocator).entries[(⟨0, 0⟩ : Entity).id]? =
      some ⟨false, 0⟩ ∧
    (⟨false, 0⟩ : EntityAllocatorEntry).is_alive = false ∧
    EntityAllocator.deallocate ⟨[⟨false, 0⟩], [0]⟩ ⟨0, 0⟩ =
      Except.ok ⟨[⟨false, 0⟩], [0] ++ [(⟨0, 0⟩ : Entity).id]⟩ :=
  ⟨by decide, rfl, C8_deallocate_dead ⟨[⟨false, 0⟩], [0]⟩ ⟨0, 0⟩ ⟨false, 0⟩
    (by decide) rfl⟩

/-- C9: with the `RefCell` borrow discipline explicit, requesting a write
accessor for a pool while any accessor (read or write) to that same pool is
outstanding is a fatal observable failure (`none`, the modelled panic)
rather than a returned aliasing accessor; moreover a write borrow is only
obtainable from the unborrowed state, and a read borrow is obtainable
exactly when no writer is outstanding, so a pool has either readers or one
writer, never both. -/
theorem C9_aliasing {κ : Type} {V : κ → Type} [DecidableEq κ] (w : World κ V)
    (flags : κ → BorrowFlag) (k : κ) (e : Entity)
    (hval : w.entity_allocator.is_valid e = true)
    (hreg : (w.component_pools k).isSome = true)
    (hout : flags k ≠ BorrowFlag.unused) :
    w.get_component_mut_flagged flags k e = none ∧
    (∀ f : BorrowFlag, f.tryBorrowMut.isSome = true ↔ f = BorrowFlag.unused) ∧
    (∀ f : BorrowFlag, f.tryBorrow.isSome = true ↔ f ≠ BorrowFlag.writing) := by
  refine ⟨?_, ?_, ?_⟩
  · unfold World.get_component_mut_flagged
    rw [hval]
    obtain ⟨pool, hpool⟩ := Option.isSome_iff_exists.mp hreg
    rw [hpool]
    have hmut : (flags k).tryBorrowMut = none := by
      cases hf : flags k with
      | unused => exact absurd hf hout
      | reading n => rfl
      | writing => rfl
    simp [hmut]
  · intro f; cases f <;> simp [BorrowFlag.tryBorrowMut]
  · intro f; cases f <;> simp [BorrowFlag.tryBorrow]

/-- Witness for `C9_aliasing`: a world holding one registered pool and one
live object, with one read accessor outstanding on the pool. -/
theorem C9_aliasing_witness :
    (⟨⟨[⟨true, 0⟩], []⟩, fun _ => some ⟨[none], [], []⟩⟩ :
        World Unit (fun _ => Nat)).entity_allocator.is_valid ⟨0, 0⟩ = true ∧
    ((⟨⟨[⟨true, 0⟩], []⟩, fun _ => some ⟨[none], [], []⟩⟩ :
        World Unit (fun _ => Nat)).component_pools ()).isSome = true ∧
    (fun _ : Unit => BorrowFlag.reading 0) () ≠ BorrowFlag.unused ∧
    World.get_component_mut_flagged
      (⟨⟨[⟨true, 0⟩], []⟩, fun _ => some ⟨[none], [], []⟩⟩ : World Unit (fun _ => Nat))
      (fun _ => BorrowFlag.reading 0) () ⟨0, 0⟩ = none :=
  ⟨rfl, rfl, by decide,
    (C9_aliasing (⟨⟨[⟨true, 0⟩], []⟩, fun _ => some ⟨[none], [], []⟩⟩ :
        World Unit (fun _ => Nat))
      (fun _ => BorrowFlag.reading 0) () ⟨0, 0⟩ rfl rfl (by decide)).1⟩

/-- If the filtering closure panics on some member, consuming the whole
`filter_map` panics. -/
theorem runFilterMap_none_of_mem {β : Type} {f : Entity → Option (Option β)}
    {l : List Entity} {e : Entity} (he : e ∈ l) (hf : f e = none) :
    World.runFilterMap f l = none := by
  induction l with
  | nil => cases he
  | cons a rest ih =>
      rcases List.mem_cons.mp he with rfl | hmem
      · unfold World.runFilterMap
        rw [hf]
      · unfold World.runFilterMap
        cases hfa : f a with
        | none => rfl
        | some o =>
            cases o with
            | none => exact ih hmem
            | some b => rw [ih hmem]; rfl

/-- The per-entity query step panics on an invalid handle: `get_component`
returns `Err(InvalidEntity)` and `execute` escalates it with `expect`. -/
theorem World.execute2_none_of_invalid {κ : Type} {V : κ → Type} [DecidableEq κ]
    (w : World κ V) (kA kB : κ) (e : Entity)
    (hdead : w.entity_allocator.is_valid e = false) :
    w.execute2 kA kB e = none ∧ w.execute2_mut kA kB e = none := by
  constructor
  · unfold World.execute2 World.get_component
    rw [hdead]
    rfl
  · unfold World.execute2_mut World.get_component_mut
    rw [hdead]
    rfl

/-- C10: when the dense handle list chosen as the driving set contains a
handle that is no longer valid, fully consuming `query` (or `query_mut`)
panics — the `InvalidEntity` error surfaced by the per-entity component
lookup is escalated by `expect` — instead of skipping the dead object. -/
theorem C10_query_dead_handle {κ : Type} {V : κ → Type} [DecidableEq κ]
    (w : World κ V) (kA kB : κ) (L : List Entity)
    (hc : w.query2Candidates kA kB = some L)
    (e : Entity) (he : e ∈ L)
    (hdead : w.entity_allocator.is_valid e = false) :
    w.query2 kA kB = none ∧ w.query2_mut kA kB = none := by
  obtain ⟨hex, hexm⟩ := w.execute2_none_of_invalid kA kB e hdead
  constructor
  · unfold World.query2
    rw [hc]
    exact runFilterMap_none_of_mem he hex
  · unfold World.query2_mut
    rw [hc]
    exact runFilterMap_none_of_mem he hexm

/-- Witness for `C10_query_dead_handle`: a world whose two pools both hold
the destroyed handle (0, 0); the driving set is the A pool's dense list. -/
theorem C10_query_dead_handle_witness :
    World.query2Candidates
      (⟨⟨[⟨false, 0⟩], [0]⟩,
        fun b => if b then some ⟨[some 0], [⟨0, 0⟩], [7]⟩
          else some ⟨[some 0], [⟨0, 0⟩], [8]⟩⟩ : World Bool (fun _ => Nat))
      true false = some [⟨0, 0⟩] ∧
    (⟨0, 0⟩ : Entity) ∈ [(⟨0, 0⟩ : Entity)] ∧
    (⟨⟨[⟨false, 0⟩], [0]⟩,
        fun b => if b then some ⟨[some 0], [⟨0, 0⟩], [7]⟩
          else some ⟨[some 0], [⟨0, 0⟩], [8]⟩⟩ :
      World Bool (fun _ => Nat)).entity_allocator.is_valid ⟨0, 0⟩ = false ∧
    World.query2
      (⟨⟨[⟨false, 0⟩], [0]⟩,
        fun b => if b then some ⟨[some 0], [⟨0, 0⟩], [7]⟩
          else some ⟨[some 0], [⟨0, 0⟩], [8]⟩⟩ : World Bool (fun _ => Nat))
      true false = none ∧
    World.query2_mut
      (⟨⟨[⟨false, 0⟩], [0]⟩,
        fun b => if b then some ⟨[some 0], [⟨0, 0⟩], [7]⟩
          else some ⟨[some 0], [⟨0, 0⟩], [8]⟩⟩ : World Bool (fun _ => Nat))
      true false = none := by
  have h := C10_query_dead_handle
    (⟨⟨[⟨false, 0⟩], [0]⟩,
      fun b => if b then some ⟨[some 0], [⟨0, 0⟩], [7]⟩
        else some ⟨[some 0], [⟨0, 0⟩], [8]⟩⟩ : World Bool (fun _ => Nat))
    true false [⟨0, 0⟩] rfl ⟨0, 0⟩ (List.mem_singleton.mpr rfl) rfl
  exact ⟨rfl, List.mem_singleton.mpr rfl, rfl, h.1, h.2⟩

/-- C1 (amended): stale component data of a destroyed object IS observable
through the recycling handle: if `e1` owned a `T` stored at dense slot `d`
with value `v`, then after `destroy_object(e1)` the next `create_object()`
reuses `e1`'s index (it sits on top of the free list), the new handle `e2`
is valid, and `get_component::<T>(e2)` returns `e1`'s old value `v` rather
than "no value" — the sparse slot is inherited because destruction never
purges pools and `register_entity` leaves an in-range slot untouched. -/
theorem C1_stale_value_through_reused_handle {κ : Type} {V : κ → Type} [DecidableEq κ]
    (w : World κ V) (k : κ) (e1 : Entity) (pool : ComponentPool (V k))
    (d : Nat) (v : V k) (entry : EntityAllocatorEntry)
    (hpool : w.component_pools k = some pool)
    (hslot : pool.all_entities[e1.id]? = some (some d))
    (hval : pool.components[d]? = some v)
    (hentry : w.entity_allocator.entries[e1.id]? = some entry) :
    ∃ e2 w2, (w.destroy_entity e1).create_entity = some (e2, w2) ∧
      e2.id = e1.id ∧
      w2.entity_allocator.is_valid e2 = true ∧
      w2.get_component k e2 = some (Except.ok (some v)) := by
  have hlt : e1.id < w.entity_allocator.entries.length := lt_length_of_getElem? hentry
  have hdeall : w.entity_allocator.deallocate e1 = Except.ok
      ⟨w.entity_allocator.entries.set e1.id ⟨false, entry.generation⟩,
        w.entity_allocator.available_entity_ids ++ [e1.id]⟩ := by
    unfold EntityAllocator.deallocate
    rw [hentry]
  have hw1 : w.destroy_entity e1 = { w with entity_allocator :=
      ⟨w.entity_allocator.entries.set e1.id ⟨false, entry.generation⟩,
        w.entity_allocator.available_entity_ids ++ [e1.id]⟩ } := by
    unfold World.destroy_entity
    rw [hdeall]
  have hget1 : (w.entity_allocator.entries.set e1.id ⟨false, entry.generation⟩)[e1.id]? =
      some ⟨false, entry.generation⟩ := List.getElem?_set_eq_of_lt _ hlt
  have halloc : (⟨w.entity_allocator.entries.set e1.id ⟨false, entry.generation⟩,
      w.entity_allocator.available_entity_ids ++ [e1.id]⟩ : EntityAllocator).allocate =
      some (⟨e1.id, (entry.generation + 1) % 2 ^ 64⟩,
        ⟨(w.entity_allocator.entries.set e1.id ⟨false, entry.generation⟩).set e1.id
            ⟨true, (entry.generation + 1) % 2 ^ 64⟩,
          (w.entity_allocator.available_entity_ids ++ [e1.id]).dropLast⟩) := by
    unfold EntityAllocator.allocate
    dsimp only
    rw [List.getLast?_concat]
    dsimp only
    rw [hget1]
  have hregsame : pool.register_entity ⟨e1.id, (entry.generation + 1) % 2 ^ 64⟩ = pool := by
    unfold ComponentPool.register_entity
    rw [if_neg]
    exact fun hc => absurd (lt_length_of_getElem? hslot) (Nat.not_lt.mpr hc)
  refine ⟨⟨e1.id, (entry.generation + 1) % 2 ^ 64⟩,
    { entity_allocator :=
        ⟨(w.entity_allocator.entries.set e1.id ⟨false, entry.generation⟩).set e1.id
            ⟨true, (entry.generation + 1) % 2 ^ 64⟩,
          (w.entity_allocator.available_entity_ids ++ [e1.id]).dropLast⟩,
      component_pools := fun kk =>
        (w.component_pools kk).map
          (·.register_entity ⟨e1.id, (entry.generation + 1) % 2 ^ 64⟩) },
    ?_, rfl, ?_, ?_⟩
  · rw [hw1]
    unfold World.create_entity
    rw [halloc]
    rfl
  · exact EntityAllocator.isValid_entries_set
      (by rw [List.length_set]; exact hlt) true ((entry.generation + 1) % 2 ^ 64)
  · have hvalid : EntityAllocator.is_valid
        ⟨(w.entity_allocator.entries.set e1.id ⟨false, entry.generation⟩).set e1.id
            ⟨true, (entry.generation + 1) % 2 ^ 64⟩,
          (w.entity_allocator.available_entity_ids ++ [e1.id]).dropLast⟩
        ⟨e1.id, (entry.generation + 1) % 2 ^ 64⟩ = true :=
      EntityAllocator.isValid_entries_set
        (by rw [List.length_set]; exact hlt) true ((entry.generation + 1) % 2 ^ 64)
    unfold World.get_component
    rw [if_pos hvalid]
    simp only [hpool, Option.map_some', hregsame, hslot, hval]

/-- Witness for `C1_stale_value_through_reused_handle`: one live object at
index 0 owning component value 5. -/
theorem C1_stale_value_witness :
    (⟨⟨[⟨true, 0⟩], []⟩, fun _ => some ⟨[some 0], [⟨0, 0⟩], [5]⟩⟩ :
        World Unit (fun _ => Nat)).component_pools () =
      some ⟨[some 0], [⟨0, 0⟩], [5]⟩ ∧
    (⟨[some 0], [⟨0, 0⟩], [5]⟩ : ComponentPool Nat).all_entities[(⟨0, 0⟩ : Entity).id]? =
      some (some 0) ∧
    (⟨[some 0], [⟨0, 0⟩], [5]⟩ : ComponentPool Nat).components[(0 : Nat)]? = some 5 ∧
    (⟨⟨[⟨true, 0⟩], []⟩, fun _ => some ⟨[some 0], [⟨0, 0⟩], [5]⟩⟩ :
        World Unit (fun _ => Nat)).entity_allocator.entries[(⟨0, 0⟩ : Entity).id]? =
      some ⟨true, 0⟩ ∧
    (∃ e2 w2,
      (((⟨⟨[⟨true, 0⟩], []⟩, fun _ => some ⟨[some 0], [⟨0, 0⟩], [5]⟩⟩ :
          World Unit (fun _ => Nat)).destroy_entity ⟨0, 0⟩).create_entity = some (e2, w2) ∧
      e2.id = (⟨0, 0⟩ : Entity).id ∧
      w2.entity_allocator.is_valid e2 = true ∧
      w2.get_component () e2 = some (Except.ok (some 5)))) :=
  ⟨rfl, by decide, by decide, by decide,
    C1_stale_value_through_reused_handle
      (⟨⟨[⟨true, 0⟩], []⟩, fun _ => some ⟨[some 0], [⟨0, 0⟩], [5]⟩⟩ :
        World Unit (fun _ => Nat)) () ⟨0, 0⟩ ⟨[some 0], [⟨0, 0⟩], [5]⟩ 0 5 ⟨true, 0⟩
      rfl (by decide) (by decide) (by decide)⟩

/-- C1 is false as stated: running the API end to end — register a pool,
create `e1`, add component value 5 to `e1`, destroy `e1`, create again —
yields a new valid handle `e2 = (0, 1)` on `e1`'s index, and
`get_component(e2)` returns `Some 5` (the destroyed object's value), not
"no value". -/
theorem C1_counterexample :
    ∃ w2 w3 w5,
      ((World.new Unit (fun _ => Nat)).register_component ()).create_entity =
        some (⟨0, 0⟩, w2) ∧
      w2.add_component () ⟨0, 0⟩ 5 = some (Except.ok w3) ∧
      (w3.destroy_entity ⟨0, 0⟩).create_entity = some (⟨0, 1⟩, w5) ∧
      w5.entity_allocator.is_valid ⟨0, 1⟩ = true ∧
      (⟨0, 1⟩ : Entity) ≠ (⟨0, 0⟩ : Entity) ∧
      w5.get_component () ⟨0, 1⟩ = some (Except.ok (some 5)) ∧
      w5.get_component () ⟨0, 1⟩ ≠ some (Except.ok none) := by
  exact ⟨_, _, _, rfl, rfl, rfl, by decide, by decide, rfl, by decide⟩

theorem add_component_of_invalid {κ : Type} {V : κ → Type} [DecidableEq κ]
    (w : World κ V) (k : κ) (e : Entity) (v : V k)
    (hv : w.entity_allocator.is_valid e = false) :
    w.add_component k e v = some (Except.error EntityComponentError.InvalidEntity) := by
  simp [World.add_component, hv]

theorem add_component_of_unregistered {κ : Type} {V : κ → Type} [DecidableEq κ]
    (w : World κ V) (k : κ) (e : Entity) (v : V k)
    (hv : w.entity_allocator.is_valid e = true) (hp : w.component_pools k = none) :
    w.add_component k e v = some (Except.error EntityComponentError.UnregisteredComponent) := by
  simp [World.add_component, hv, hp]

theorem add_component_of_owned {κ : Type} {V : κ → Type} [DecidableEq κ]
    (w : World κ V) (k : κ) (e : Entity) (v : V k) (pool : ComponentPool (V k)) (d : Nat)
    (hv : w.entity_allocator.is_valid e = true) (hp : w.component_pools k = some pool)
    (hs : pool.all_entities[e.id]? = some (some d)) :
    w.add_component k e v = some (Except.ok w) := by
  simp [World.add_component, hv, hp, hs]

theorem add_component_of_fresh {κ : Type} {V : κ → Type} [DecidableEq κ]
    (w : World κ V) (k : κ) (e : Entity) (v : V k) (pool : ComponentPool (V k))
    (hv : w.entity_allocator.is_valid e = true) (hp : w.component_pools k = some pool)
    (hs : pool.all_entities[e.id]? = some none) :
    w.add_component k e v = some (Except.ok
      { w with component_pools :=
                 Function.update w.component_pools k
                   (some ⟨pool.all_entities.set e.id
                            (some pool.entities_with_component.length),
                          pool.entities_with_component ++ [e],
                          pool.components ++ [v]⟩) }) := by
  simp [World.add_component, hv, hp, hs]

theorem add_component_of_oob {κ : Type} {V : κ → Type} [DecidableEq κ]
    (w : World κ V) (k : κ) (e : Entity) (v : V k) (pool : ComponentPool (V k))
    (hv : w.entity_allocator.is_valid e = true) (hp : w.component_pools k = some pool)
    (hs : pool.all_entities[e.id]? = none) :
    w.add_component k e v = none := by
  simp [World.add_component, hv, hp, hs]

/-- C3: full postcondition of `add_component` — it returns `InvalidEntity`
exactly when the handle is invalid; for a valid handle it returns
`UnregisteredComponent` exactly when no pool for the type is registered;
when the object already owns the component it returns success and leaves
the world (both dense arrays and the stored value) unchanged; otherwise it
appends the handle and the value to the two parallel dense arrays and sets
the sparse slot for the handle's index to the new last dense position. -/
theorem C3_add_component_postcondition {κ : Type} {V : κ → Type} [DecidableEq κ]
    (w : World κ V) (k : κ) (e : Entity) (v : V k) :
    (w.add_component k e v = some (Except.error EntityComponentError.InvalidEntity) ↔
      w.entity_allocator.is_valid e = false) ∧
    (w.entity_allocator.is_valid e = true →
      (w.add_component k e v = some (Except.error EntityComponentError.UnregisteredComponent) ↔
        w.component_pools k = none)) ∧
    (∀ (pool : ComponentPool (V k)) (d : Nat),
      w.entity_allocator.is_valid e = true →
      w.component_pools k = some pool →
      pool.all_entities[e.id]? = some (some d) →
      w.add_component k e v = some (Except.ok w)) ∧
    (∀ pool : ComponentPool (V k),
      w.entity_allocator.is_valid e = true →
      w.component_pools k = some pool →
      pool.all_entities[e.id]? = some none →
      w.add_component k e v = some (Except.ok
        { w with component_pools :=
                   Function.update w.component_pools k
                     (some ⟨pool.all_entities.set e.id
                              (some pool.entities_with_component.length),
                            pool.entities_with_component ++ [e],
                            pool.components ++ [v]⟩) })) := by
  refine ⟨⟨?_, add_component_of_invalid w k e v⟩,
    fun hv => ⟨?_, add_component_of_unregistered w k e v hv⟩,
    fun pool d hv hp hs => add_component_of_owned w k e v pool d hv hp hs,
    fun pool hv hp hs => add_component_of_fresh w k e v pool hv hp hs⟩
  · intro h
    cases hval : w.entity_allocator.is_valid e with
    | false => rfl
    | true =>
        exfalso
        cases hpool : w.component_pools k with
        | none => rw [add_component_of_unregistered w k e v hval hpool] at h; simp at h
        | some pool =>
            cases hslot : pool.all_entities[e.id]? with
            | none => rw [add_component_of_oob w k e v pool hval hpool hslot] at h; simp at h
            | some o =>
                cases o with
                | none =>
                    rw [add_component_of_fresh w k e v pool hval hpool hslot] at h
                    simp at h
                | some d =>
                    rw [add_component_of_owned w k e v pool d hval hpool hslot] at h
                    simp at h
  · intro h
    cases hpool : w.component_pools k with
    | none => rfl
    | some pool =>
        exfalso
        cases hslot : pool.all_entities[e.id]? with
        | none => rw [add_component_of_oob w k e v pool hv hpool hslot] at h; simp at h
        | some o =>
            cases o with
            | none =>
                rw [add_component_of_fresh w k e v pool hv hpool hslot] at h
                simp at h
            | some d =>
                rw [add_component_of_owned w k e v pool d hv hpool hslot] at h
                simp at h

/-- Witness for `C3_add_component_postcondition`: the append case on a
world with one live object, one registered empty pool. -/
theorem C3_add_component_witness :
    (⟨⟨[⟨true, 0⟩], []⟩, fun _ => some ⟨[none], [], []⟩⟩ :
        World Unit (fun _ => Nat)).entity_allocator.is_valid ⟨0, 0⟩ = true ∧
    (⟨⟨[⟨true, 0⟩], []⟩, fun _ => some ⟨[none], [], []⟩⟩ :
        World Unit (fun _ => Nat)).component_pools () = some ⟨[none], [], []⟩ ∧
    (⟨[none], [], []⟩ : ComponentPool Nat).all_entities[(⟨0, 0⟩ : Entity).id]? =
      some none ∧
    (⟨⟨[⟨true, 0⟩], []⟩, fun _ => some ⟨[none], [], []⟩⟩ :
        World Unit (fun _ => Nat)).add_component () ⟨0, 0⟩ 5 =
      some (Except.ok
        { (⟨⟨[⟨true, 0⟩], []⟩, fun _ => some ⟨[none], [], []⟩⟩ :
            World Unit (fun _ => Nat)) with
          component_pools :=
            Function.update
              (⟨⟨[⟨true, 0⟩], []⟩, fun _ => some ⟨[none], [], []⟩⟩ :
                World Unit (fun _ => Nat)).component_pools ()
              (some ⟨[none].set (⟨0, 0⟩ : Entity).id
                       (some ([] : List Entity).length),
                     ([] : List Entity) ++ [⟨0, 0⟩],
                     ([] : List Nat) ++ [5]⟩) }) :=
  ⟨rfl, rfl, by decide,
    (C3_add_component_postcondition
      (⟨⟨[⟨true, 0⟩], []⟩, fun _ => some ⟨[none], [], []⟩⟩ :
        World Unit (fun _ => Nat)) () ⟨0, 0⟩ 5).2.2.2
      ⟨[none], [], []⟩ rfl rfl (by decide)⟩

/-- With both pools registered, the candidate list is the dense handle list
of the pool with fewer entries; the A pool wins ties (`min_by_key` keeps
the first minimum). -/
theorem World.query2Candidates_eq {κ : Type} {V : κ → Type} [DecidableEq κ]
    (w : World κ V) (kA kB : κ) (pA : ComponentPool (V kA)) (pB : ComponentPool (V kB))
    (hA : w.component_pools kA = some pA) (hB : w.component_pools kB = some pB) :
    w.query2Candidates kA kB = some
      (if pA.entities_with_component.length ≤ pB.entities_with_component.length
        then pA.entities_with_component else pB.entities_with_component) := by
  unfold World.query2Candidates
  rw [hA, hB]
  dsimp only
  by_cases h : pA.entities_with_component.length ≤ pB.entities_with_component.length
  · rw [if_pos h, if_pos h]
  · rw [if_neg h, if_neg h]

/-- C5: the candidate set iterated by a two-component query is exactly the
dense handle list of the required pool with the fewest entries — so at most
`min` of the two dense-array lengths candidates are examined — and a tie
deterministically selects the first (A) pool. -/
theorem C5_minimal_scan {κ : Type} {V : κ → Type} [DecidableEq κ]
    (w : World κ V) (kA kB : κ) (pA : ComponentPool (V kA)) (pB : ComponentPool (V kB))
    (hA : w.component_pools kA = some pA) (hB : w.component_pools kB = some pB) :
    ∃ L, w.query2Candidates kA kB = some L ∧
      (L = pA.entities_with_component ∨ L = pB.entities_with_component) ∧
      L.length = min pA.entities_with_component.length pB.entities_with_component.length ∧
      (pA.entities_with_component.length ≤ pB.entities_with_component.length →
        L = pA.entities_with_component) ∧
      (pB.entities_with_component.length < pA.entities_with_component.length →
        L = pB.entities_with_component) ∧
      w.query2 kA kB = World.runFilterMap (w.execute2 kA kB) L := by
  refine ⟨if pA.entities_with_component.length ≤ pB.entities_with_component.length
    then pA.entities_with_component else pB.entities_with_component,
    World.query2Candidates_eq w kA kB pA pB hA hB, ?_, ?_, ?_, ?_, ?_⟩
  · by_cases h : pA.entities_with_component.length ≤ pB.entities_with_component.length
    · rw [if_pos h]; exact Or.inl rfl
    · rw [if_neg h]; exact Or.inr rfl
  · by_cases h : pA.entities_with_component.length ≤ pB.entities_with_component.length
    · rw [if_pos h, Nat.min_eq_left h]
    · rw [if_neg h, Nat.min_eq_right (Nat.le_of_lt (Nat.lt_of_not_le h))]
  · intro h; rw [if_pos h]
  · intro h; rw [if_neg (Nat.not_le_of_lt h)]
  · unfold World.query2
    rw [World.query2Candidates_eq w kA kB pA pB hA hB]
    rfl

/-- Witness for `C5_minimal_scan`: pool A holds 2 dense entries, pool B
holds 1000, so the driving set is A's two handles. -/
theorem C5_minimal_scan_witness :
    (⟨⟨[⟨true, 0⟩, ⟨true, 0⟩], []⟩,
      fun b => if b then some ⟨[some 0, some 1], [⟨0, 0⟩, ⟨1, 0⟩], [1, 2]⟩
        else some ⟨[], List.replicate 1000 ⟨0, 0⟩, List.replicate 1000 7⟩⟩ :
      World Bool (fun _ => Nat)).component_pools true =
        some ⟨[some 0, some 1], [⟨0, 0⟩, ⟨1, 0⟩], [1, 2]⟩ ∧
    (⟨⟨[⟨true, 0⟩, ⟨true, 0⟩], []⟩,
      fun b => if b then some ⟨[some 0, some 1], [⟨0, 0⟩, ⟨1, 0⟩], [1, 2]⟩
        else some ⟨[], List.replicate 1000 ⟨0, 0⟩, List.replicate 1000 7⟩⟩ :
      World Bool (fun _ => Nat)).component_pools false =
        some ⟨[], List.replicate 1000 ⟨0, 0⟩, List.replicate 1000 7⟩ ∧
    (∃ L, (⟨⟨[⟨true, 0⟩, ⟨true, 0⟩], []⟩,
      fun b => if b then some ⟨[some 0, some 1], [⟨0, 0⟩, ⟨1, 0⟩], [1, 2]⟩
        else some ⟨[], List.replicate 1000 ⟨0, 0⟩, List.replicate 1000 7⟩⟩ :
      World Bool (fun _ => Nat)).query2Candidates true false = some L ∧
      (L = [⟨0, 0⟩, ⟨1, 0⟩] ∨ L = List.replicate 1000 ⟨0, 0⟩) ∧
      L.length = min ([(⟨0, 0⟩ : Entity), ⟨1, 0⟩]).length
        (List.replicate 1000 (⟨0, 0⟩ : Entity)).length ∧
      (([(⟨0, 0⟩ : Entity), ⟨1, 0⟩]).length ≤
          (List.replicate 1000 (⟨0, 0⟩ : Entity)).length →
        L = [⟨0, 0⟩, ⟨1, 0⟩]) ∧
      ((List.replicate 1000 (⟨0, 0⟩ : Entity)).length <
          ([(⟨0, 0⟩ : Entity), ⟨1, 0⟩]).length →
        L = List.replicate 1000 ⟨0, 0⟩) ∧
      (⟨⟨[⟨true, 0⟩, ⟨true, 0⟩], []⟩,
        fun b => if b then some ⟨[some 0, some 1], [⟨0, 0⟩, ⟨1, 0⟩], [1, 2]⟩
          else some ⟨[], List.replicate 1000 ⟨0, 0⟩, List.replicate 1000 7⟩⟩ :
        World Bool (fun _ => Nat)).query2 true false =
          World.runFilterMap
            ((⟨⟨[⟨true, 0⟩, ⟨true, 0⟩], []⟩,
              fun b => if b then some ⟨[some 0, some 1], [⟨0, 0⟩, ⟨1, 0⟩], [1, 2]⟩
                else some ⟨[], List.replicate 1000 ⟨0, 0⟩, List.replicate 1000 7⟩⟩ :
              World Bool (fun _ => Nat)).execute2 true false) L) :=
  ⟨rfl, rfl,
    C5_minimal_scan
      (⟨⟨[⟨true, 0⟩, ⟨true, 0⟩], []⟩,
        fun b => if b then some ⟨[some 0, some 1], [⟨0, 0⟩, ⟨1, 0⟩], [1, 2]⟩
          else some ⟨[], List.replicate 1000 ⟨0, 0⟩, List.replicate 1000 7⟩⟩ :
        World Bool (fun _ => Nat)) true false
      ⟨[some 0, some 1], [⟨0, 0⟩, ⟨1, 0⟩], [1, 2]⟩
      ⟨[], List.replicate 1000 ⟨0, 0⟩, List.replicate 1000 7⟩ rfl rfl⟩

/-- Characterization (forward): a successful component read means a valid
handle, a registered pool, a set sparse slot and the dense value. -/
theorem World.get_component_inv {κ : Type} {V : κ → Type} [DecidableEq κ]
    {w : World κ V} {k : κ} {e : Entity} {a : V k}
    (h : w.get_component k e = some (Except.ok (some a))) :
    w.entity_allocator.is_valid e = true ∧
    ∃ pool d, w.component_pools k = some pool ∧
      pool.all_entities[e.id]? = some (some d) ∧ pool.components[d]? = some a := by
  unfold World.get_component at h
  by_cases hv : w.entity_allocator.is_valid e = true
  · rw [if_pos hv] at h
    refine ⟨hv, ?_⟩
    cases hp : w.component_pools k with
    | none => rw [hp] at h; simp at h
    | some pool =>
        rw [hp] at h
        dsimp only at h
        cases hs : pool.all_entities[e.id]? with
        | none => rw [hs] at h; simp at h
        | some o =>
            rw [hs] at h
            cases o with
            | none => simp at h
            | some d =>
                dsimp only at h
                cases hc : pool.components[d]? with
                | none => rw [hc] at h; simp at h
                | some v =>
                    rw [hc] at h
                    simp only [Option.some_inj, Except.ok.injEq] at h
                    subst h
                    exact ⟨pool, d, rfl, hs, hc⟩
  · rw [if_neg hv] at h
    simp at h

/-- Characterization (backward). -/
theorem World.get_component_of_parts {κ : Type} {V : κ → Type} [DecidableEq κ]
    {w : World κ V} {k : κ} {e : Entity} {a : V k} {pool : ComponentPool (V k)} {d : Nat}
    (hv : w.entity_allocator.is_valid e = true)
    (hp : w.component_pools k = some pool)
    (hs : pool.all_entities[e.id]? = some (some d))
    (hc : pool.components[d]? = some a) :
    w.get_component k e = some (Except.ok (some a)) := by
  simp [World.get_component, hv, hp, hs, hc]

/-- Under the pool invariant, reading a component of a valid handle never
panics: the result is `Ok`. -/
theorem World.get_component_total {κ : Type} {V : κ → Type} [DecidableEq κ]
    {w : World κ V} {k : κ} {e : Entity} {pool : ComponentPool (V k)}
    (hp : w.component_pools k = some pool)
    (hWF : pool.WF w.entity_allocator.get_num_entries)
    (hv : w.entity_allocator.is_valid e = true) :
    ∃ r, w.get_component k e = some (Except.ok r) := by
  obtain ⟨hlen, hpar, hinv3, _⟩ := hWF
  have hid : e.id < pool.all_entities.length := by
    rw [hlen]
    exact EntityAllocator.lt_of_valid hv
  obtain ⟨o, ho⟩ : ∃ o, pool.all_entities[e.id]? = some o :=
    ⟨pool.all_entities[e.id], List.getElem?_eq_getElem hid⟩
  cases o with
  | none => exact ⟨none, by simp [World.get_component, hv, hp, ho]⟩
  | some d =>
      obtain ⟨e', he', _⟩ := hinv3 e.id d ho
      have hd : d < pool.components.length := by
        rw [hpar]
        exact lt_length_of_getElem? he'
      obtain ⟨v, hval⟩ : ∃ v, pool.components[d]? = some v :=
        ⟨pool.components[d], List.getElem?_eq_getElem hd⟩
      exact ⟨some v, by simp [World.get_component, hv, hp, ho, hval]⟩

/-- Inversion of a two-component query step that kept the entity. -/
theorem World.execute2_inv {κ : Type} {V : κ → Type} [DecidableEq κ]
    {w : World κ V} {kA kB : κ} {e : Entity} {a : V kA} {b : V kB}
    (h : w.execute2 kA kB e = some (some (a, b))) :
    w.get_component kA e = some (Except.ok (some a)) ∧
    w.get_component kB e = some (Except.ok (some b)) := by
  unfold World.execute2 at h
  cases hga : w.get_component kA e with
  | none => rw [hga] at h; simp at h
  | some ra =>
      rw [hga] at h
      cases ra with
      | error _ => simp at h
      | ok oa =>
          cases oa with
          | none => simp at h
          | some a' =>
              dsimp only at h
              cases hgb : w.get_component kB e with
              | none => rw [hgb] at h; simp at h
              | some rb =>
                  rw [hgb] at h
                  cases rb with
                  | error _ => simp at h
                  | ok ob =>
                      cases ob with
                      | none => simp at h
                      | some b' =>
                          simp only [Option.some_inj, Prod.mk.injEq] at h
                          obtain ⟨rfl, rfl⟩ := h
                          exact ⟨rfl, rfl⟩

/-- A query step on an entity whose two reads both return `Ok` does not
panic. -/
theorem World.execute2_isSome {κ : Type} {V : κ → Type} [DecidableEq κ]
    {w : World κ V} {kA kB : κ} {e : Entity} {ra : Option (V kA)} {rb : Option (V kB)}
    (hga : w.get_component kA e = some (Except.ok ra))
    (hgb : w.get_component kB e = some (Except.ok rb)) :
    (w.execute2 kA kB e).isSome = true := by
  unfold World.execute2
  rw [hga]
  cases ra with
  | none => rfl
  | some a =>
      rw [hgb]
      cases rb with
      | none => rfl
      | some b => rfl

/-- The query step keeps exactly the entities whose two reads succeed. -/
theorem World.execute2_of_parts {κ : Type} {V : κ → Type} [DecidableEq κ]
    {w : World κ V} {kA kB : κ} {e : Entity} {a : V kA} {b : V kB}
    (hga : w.get_component kA e = some (Except.ok (some a)))
    (hgb : w.get_component kB e = some (Except.ok (some b))) :
    w.execute2 kA kB e = some (some (a, b)) := by
  unfold World.execute2
  rw [hga, hgb]

/-- Consuming `filter_map` when no element panics: the output collects
exactly the kept elements with their results. -/
theorem runFilterMap_some_iff {β : Type} (f : Entity → Option (Option β)) :
    ∀ (l : List Entity), (∀ e ∈ l, (f e).isSome = true) →
    ∃ L, World.runFilterMap f l = some L ∧
      ∀ (e : Entity) (b : β), ((e, b) ∈ L ↔ (e ∈ l ∧ f e = some (some b)))
  | [], _ => ⟨[], rfl, by simp⟩
  | a :: rest, h => by
      obtain ⟨L', hL', hiff⟩ :=
        runFilterMap_some_iff f rest (fun e he => h e (List.mem_cons_of_mem a he))
      have ha := h a (List.mem_cons_self a rest)
      cases hfa : f a with
      | none => rw [hfa] at ha; simp at ha
      | some o =>
          cases o with
          | none =>
              refine ⟨L', ?_, ?_⟩
              · unfold World.runFilterMap
                rw [hfa, hL']
              · intro e b
                rw [hiff e b]
                constructor
                · rintro ⟨hm, hfe⟩
                  exact ⟨List.mem_cons_of_mem a hm, hfe⟩
                · rintro ⟨hm, hfe⟩
                  rcases List.mem_cons.mp hm with rfl | hm'
                  · rw [hfa] at hfe; simp at hfe
                  · exact ⟨hm', hfe⟩
          | some b0 =>
              refine ⟨(a, b0) :: L', ?_, ?_⟩
              · unfold World.runFilterMap
                rw [hfa, hL']
                rfl
              · intro e b
                constructor
                · intro hm
                  rcases List.mem_cons.mp hm with heq | hm'
                  · rw [Prod.mk.injEq] at heq
                    obtain ⟨rfl, rfl⟩ := heq
                    exact ⟨List.mem_cons_self _ _, hfa⟩
                  · obtain ⟨hm'', hfe⟩ := (hiff e b).mp hm'
                    exact ⟨List.mem_cons_of_mem a hm'', hfe⟩
                · rintro ⟨hm, hfe⟩
                  rcases List.mem_cons.mp hm with rfl | hm'
                  · rw [hfa] at hfe
                    simp only [Option.some_inj] at hfe
                    subst hfe
                    exact List.mem_cons_self _ _
                  · exact List.mem_cons_of_mem _ ((hiff e b).mpr ⟨hm', hfe⟩)

/-- A valid handle whose sparse slot is set appears in the dense handle
list, provided every dense handle is itself valid (validity pins the
generation). -/
theorem ComponentPool.mem_dense_of_valid_slot {V : Type} {n : Nat}
    {pool : ComponentPool V} {alloc : EntityAllocator} {e : Entity} {d : Nat}
    (hWF : pool.WF n)
    (hs : pool.all_entities[e.id]? = some (some d))
    (hv : alloc.is_valid e = true)
    (hall : ∀ e' ∈ pool.entities_with_component, alloc.is_valid e' = true) :
    e ∈ pool.entities_with_component := by
  obtain ⟨_, _, hinv3, _⟩ := hWF
  obtain ⟨e', he', hid⟩ := hinv3 e.id d hs
  have hmem := List.getElem?_mem he'
  have heq := EntityAllocator.eq_of_valid_of_id_eq (hall e' hmem) hv hid
  rwa [heq] at hmem

/-- C4 (amended): with pools registered for both required types, and every
handle in the chosen driving pool's dense list currently valid, the fully
consumed two-component query succeeds and yields exactly the valid objects
owning both components, each paired with its two component values. -/
theorem C4_query_exact {κ : Type} {V : κ → Type} [DecidableEq κ]
    (w : World κ V) (kA kB : κ) (pA : ComponentPool (V kA)) (pB : ComponentPool (V kB))
    (hA : w.component_pools kA = some pA)
    (hB : w.component_pools kB = some pB)
    (hWA : pA.WF w.entity_allocator.get_num_entries)
    (hWB : pB.WF w.entity_allocator.get_num_entries)
    (hvalid : ∀ e ∈ (if pA.entities_with_component.length ≤ pB.entities_with_component.length
      then pA.entities_with_component else pB.entities_with_component),
      w.entity_allocator.is_valid e = true) :
    ∃ L, w.query2 kA kB = some L ∧
      ∀ (e : Entity) (a : V kA) (b : V kB),
        ((e, (a, b)) ∈ L ↔
          (w.entity_allocator.is_valid e = true ∧
           w.get_component kA e = some (Except.ok (some a)) ∧
           w.get_component kB e = some (Except.ok (some b)))) := by
  have hcand := World.query2Candidates_eq w kA kB pA pB hA hB
  have htot : ∀ e ∈ (if pA.entities_with_component.length ≤ pB.entities_with_component.length
      then pA.entities_with_component else pB.entities_with_component),
      ((w.execute2 kA kB) e).isSome = true := by
    intro e he
    have hv := hvalid e he
    obtain ⟨ra, hga⟩ := World.get_component_total hA hWA hv
    obtain ⟨rb, hgb⟩ := World.get_component_total hB hWB hv
    exact World.execute2_isSome hga hgb
  obtain ⟨L, hL, hiff⟩ := runFilterMap_some_iff (w.execute2 kA kB) _ htot
  refine ⟨L, ?_, ?_⟩
  · unfold World.query2
    rw [hcand]
    exact hL
  · intro e a b
    rw [hiff e (a, b)]
    constructor
    · rintro ⟨hm, hfe⟩
      have hv := hvalid e hm
      obtain ⟨hga, hgb⟩ := World.execute2_inv hfe
      exact ⟨hv, hga, hgb⟩
    · rintro ⟨hv, hga, hgb⟩
      have hmem : e ∈ (if pA.entities_with_component.length ≤ pB.entities_with_component.length
          then pA.entities_with_component else pB.entities_with_component) := by
        by_cases hle : pA.entities_with_component.length ≤ pB.entities_with_component.length
        · rw [if_pos hle]
          rw [if_pos hle] at hvalid
          obtain ⟨_, pA', dA, hA', hsA, _⟩ := World.get_component_inv hga
          rw [hA] at hA'
          obtain rfl := Option.some_inj.mp hA'
          exact ComponentPool.mem_dense_of_valid_slot hWA hsA hv hvalid
        · rw [if_neg hle]
          rw [if_neg hle] at hvalid
          obtain ⟨_, pB', dB, hB', hsB, _⟩ := World.get_component_inv hgb
          rw [hB] at hB'
          obtain rfl := Option.some_inj.mp hB'
          exact ComponentPool.mem_dense_of_valid_slot hWB hsB hv hvalid
      exact ⟨hmem, World.execute2_of_parts hga hgb⟩

theorem c4_poolA_WF : ComponentPool.WF 3
    (⟨[some 0, some 1, none], [⟨0, 0⟩, ⟨1, 0⟩], [10, 11]⟩ : ComponentPool Nat) := by
  refine ⟨rfl, rfl, ?_, ?_⟩
  · intro i d h
    have hi : i < 3 := by simpa using lt_length_of_getElem? h
    interval_cases i
    · simp only [List.getElem?_cons_zero, Option.some_inj] at h
      subst h
      exact ⟨⟨0, 0⟩, rfl, rfl⟩
    · simp only [List.getElem?_cons_succ, List.getElem?_cons_zero, Option.some_inj] at h
      subst h
      exact ⟨⟨1, 0⟩, rfl, rfl⟩
    · simp at h
  · intro d e' h
    have hd : d < 2 := by simpa using lt_length_of_getElem? h
    interval_cases d
    · simp only [List.getElem?_cons_zero, Option.some_inj] at h
      subst h
      rfl
    · simp only [List.getElem?_cons_succ, List.getElem?_cons_zero, Option.some_inj] at h
      subst h
      rfl

theorem c4_poolB_WF : ComponentPool.WF 3
    (⟨[none, some 0, some 1], [⟨1, 0⟩, ⟨2, 0⟩], [20, 21]⟩ : ComponentPool Nat) := by
  refine ⟨rfl, rfl, ?_, ?_⟩
  · intro i d h
    have hi : i < 3 := by simpa using lt_length_of_getElem? h
    interval_cases i
    · simp at h
    · simp only [List.getElem?_cons_succ, List.getElem?_cons_zero, Option.some_inj] at h
      subst h
      exact ⟨⟨1, 0⟩, rfl, rfl⟩
    · simp only [List.getElem?_cons_succ, List.getElem?_cons_zero, Option.some_inj] at h
      subst h
      exact ⟨⟨2, 0⟩, rfl, rfl⟩
  · intro d e' h
    have hd : d < 2 := by simpa using lt_length_of_getElem? h
    interval_cases d
    · simp only [List.getElem?_cons_zero, Option.some_inj] at h
      subst h
      rfl
    · simp only [List.getElem?_cons_succ, List.getElem?_cons_zero, Option.some_inj] at h
      subst h
      rfl

/-- Witness for `C4_query_exact`: the spec's three-object scenario with
component sets \{A\}, \{A,B\}, \{B\} — the query returns exactly the one
object holding both. -/
theorem C4_query_exact_witness :
    (⟨⟨[⟨true, 0⟩, ⟨true, 0⟩, ⟨true, 0⟩], []⟩,
      fun b => if b then some ⟨[some 0, some 1, none], [⟨0, 0⟩, ⟨1, 0⟩], [10, 11]⟩
        else some ⟨[none, some 0, some 1], [⟨1, 0⟩, ⟨2, 0⟩], [20, 21]⟩⟩ :
      World Bool (fun _ => Nat)).component_pools true =
        some ⟨[some 0, some 1, none], [⟨0, 0⟩, ⟨1, 0⟩], [10, 11]⟩ ∧
    (⟨⟨[⟨true, 0⟩, ⟨true, 0⟩, ⟨true, 0⟩], []⟩,
      fun b => if b then some ⟨[some 0, some 1, none], [⟨0, 0⟩, ⟨1, 0⟩], [10, 11]⟩
        else some ⟨[none, some 0, some 1], [⟨1, 0⟩, ⟨2, 0⟩], [20, 21]⟩⟩ :
      World Bool (fun _ => Nat)).component_pools false =
        some ⟨[none, some 0, some 1], [⟨1, 0⟩, ⟨2, 0⟩], [20, 21]⟩ ∧
    (∀ e ∈ (if ([(⟨0, 0⟩ : Entity), ⟨1, 0⟩]).length ≤ ([(⟨1, 0⟩ : Entity), ⟨2, 0⟩]).length
      then [(⟨0, 0⟩ : Entity), ⟨1, 0⟩] else [(⟨1, 0⟩ : Entity), ⟨2, 0⟩]),
      (⟨⟨[⟨true, 0⟩, ⟨true, 0⟩, ⟨true, 0⟩], []⟩,
        fun b => if b then some ⟨[some 0, some 1, none], [⟨0, 0⟩, ⟨1, 0⟩], [10, 11]⟩
          else some ⟨[none, some 0, some 1], [⟨1, 0⟩, ⟨2, 0⟩], [20, 21]⟩⟩ :
        World Bool (fun _ => Nat)).entity_allocator.is_valid e = true) ∧
    (∃ L, (⟨⟨[⟨true, 0⟩, ⟨true, 0⟩, ⟨true, 0⟩], []⟩,
      fun b => if b then some ⟨[some 0, some 1, none], [⟨0, 0⟩, ⟨1, 0⟩], [10, 11]⟩
        else some ⟨[none, some 0, some 1], [⟨1, 0⟩, ⟨2, 0⟩], [20, 21]⟩⟩ :
      World Bool (fun _ => Nat)).query2 true false = some L ∧
      ∀ (e : Entity) (a : Nat) (b : Nat),
        ((e, (a, b)) ∈ L ↔
          ((⟨⟨[⟨true, 0⟩, ⟨true, 0⟩, ⟨true, 0⟩], []⟩,
            fun b => if b then some ⟨[some 0, some 1, none], [⟨0, 0⟩, ⟨1, 0⟩], [10, 11]⟩
              else some ⟨[none, some 0, some 1], [⟨1, 0⟩, ⟨2, 0⟩], [20, 21]⟩⟩ :
            World Bool (fun _ => Nat)).entity_allocator.is_valid e = true ∧
           (⟨⟨[⟨true, 0⟩, ⟨true, 0⟩, ⟨true, 0⟩], []⟩,
            fun b => if b then some ⟨[some 0, some 1, none], [⟨0, 0⟩, ⟨1, 0⟩], [10, 11]⟩
              else some ⟨[none, some 0, some 1], [⟨1, 0⟩, ⟨2, 0⟩], [20, 21]⟩⟩ :
            World Bool (fun _ => Nat)).get_component true e = some (Except.ok (some a)) ∧
           (⟨⟨[⟨true, 0⟩, ⟨true, 0⟩, ⟨true, 0⟩], []⟩,
            fun b => if b then some ⟨[some 0, some 1, none], [⟨0, 0⟩, ⟨1, 0⟩], [10, 11]⟩
              else some ⟨[none, some 0, some 1], [⟨1, 0⟩, ⟨2, 0⟩], [20, 21]⟩⟩ :
            World Bool (fun _ => Nat)).get_component false e = some (Except.ok (some b))))) :=
  ⟨rfl, rfl, by decide,
    C4_query_exact
      (⟨⟨[⟨true, 0⟩, ⟨true, 0⟩, ⟨true, 0⟩], []⟩,
        fun b => if b then some ⟨[some 0, some 1, none], [⟨0, 0⟩, ⟨1, 0⟩], [10, 11]⟩
          else some ⟨[none, some 0, some 1], [⟨1, 0⟩, ⟨2, 0⟩], [20, 21]⟩⟩ :
        World Bool (fun _ => Nat)) true false
      ⟨[some 0, some 1, none], [⟨0, 0⟩, ⟨1, 0⟩], [10, 11]⟩
      ⟨[none, some 0, some 1], [⟨1, 0⟩, ⟨2, 0⟩], [20, 21]⟩
      rfl rfl c4_poolA_WF c4_poolB_WF (by decide)⟩

/-- C4 is false as stated: in a world where an object owning A was
destroyed but its handle is still in the A pool (the driving set, since
pool A is smaller), the consumed query panics (`none`) instead of yielding
the set of live owners of both components. -/
theorem C4_counterexample :
    (⟨⟨[⟨false, 0⟩, ⟨true, 0⟩], [0]⟩,
      fun b => if b then some ⟨[some 0, none], [⟨0, 0⟩], [1]⟩
        else some ⟨[some 0, some 1], [⟨0, 0⟩, ⟨1, 0⟩], [2, 3]⟩⟩ :
      World Bool (fun _ => Nat)).query2 true false = none ∧
    ¬ ∃ L, (⟨⟨[⟨false, 0⟩, ⟨true, 0⟩], [0]⟩,
      fun b => if b then some ⟨[some 0, none], [⟨0, 0⟩], [1]⟩
        else some ⟨[some 0, some 1], [⟨0, 0⟩, ⟨1, 0⟩], [2, 3]⟩⟩ :
      World Bool (fun _ => Nat)).query2 true false = some L := by
  have h : (⟨⟨[⟨false, 0⟩, ⟨true, 0⟩], [0]⟩,
      fun b => if b then some ⟨[some 0, none], [⟨0, 0⟩], [1]⟩
        else some ⟨[some 0, some 1], [⟨0, 0⟩, ⟨1, 0⟩], [2, 3]⟩⟩ :
      World Bool (fun _ => Nat)).query2 true false = none := by decide
  refine ⟨h, ?_⟩
  rintro ⟨L, hL⟩
  rw [h] at hL
  exact Option.noConfusion hL

/-- Two lookups at one index agree. -/
theorem getElem?_some_unique {α : Type} {l : List α} {i : Nat} {x y : α}
    (hx : l[i]? = some x) (hy : l[i]? = some y) : x = y := by
  rw [hx] at hy
  exact Option.some_inj.mp hy

/-- C6 (spec-modelled `remove_component`): removing a component whose dense
slot is not the last performs a swap-remove — both dense arrays shrink by
one, the formerly last entry moves into the vacated slot with its sparse
entry fixed up, the removed handle's sparse slot is cleared, no sparse
entry points past the new dense length, and every other object's component
remains retrievable with its original value. -/
theorem C6_swap_remove {κ : Type} {V : κ → Type} [DecidableEq κ]
    (w : World κ V) (k : κ) (e : Entity) (pool : ComponentPool (V k)) (d : Nat)
    (hp : w.component_pools k = some pool)
    (hWF : pool.WF w.entity_allocator.get_num_entries)
    (hv : w.entity_allocator.is_valid e = true)
    (hs : pool.all_entities[e.id]? = some (some d))
    (hnl : d + 1 < pool.entities_with_component.length) :
    ∃ (w' : World κ V) (pool' : ComponentPool (V k)) (moved : Entity) (mc : V k),
      pool.entities_with_component.getLast? = some moved ∧
      pool.components.getLast? = some mc ∧
      w.remove_component k e = some (Except.ok w') ∧
      w'.component_pools k = some pool' ∧
      pool'.entities_with_component.length = pool.entities_with_component.length - 1 ∧
      pool'.components.length = pool.components.length - 1 ∧
      pool'.entities_with_component[d]? = some moved ∧
      pool'.components[d]? = some mc ∧
      pool'.all_entities[moved.id]? = some (some d) ∧
      pool'.all_entities[e.id]? = some none ∧
      (∀ i dd : Nat, pool'.all_entities[i]? = some (some dd) →
        dd < pool'.entities_with_component.length) ∧
      (∀ (e' : Entity) (v : V k), e' ≠ e →
        w.entity_allocator.is_valid e' = true →
        w.get_component k e' = some (Except.ok (some v)) →
        w'.get_component k e' = some (Except.ok (some v))) := by
  obtain ⟨hlen, hpar, hinv3, hinv4⟩ := hWF
  set L := pool.entities_with_component.length with hL
  obtain ⟨moved, hmovedget⟩ : ∃ m, pool.entities_with_component[L - 1]? = some m :=
    ⟨pool.entities_with_component.get ⟨L - 1, by omega⟩, List.getElem?_eq_getElem (by omega)⟩
  obtain ⟨mc, hmcget⟩ : ∃ c, pool.components[L - 1]? = some c :=
    ⟨pool.components.get ⟨L - 1, by omega⟩, List.getElem?_eq_getElem (by omega)⟩
  have hmoved : pool.entities_with_component.getLast? = some moved := by
    rw [List.getLast?_eq_getElem?]
    exact hmovedget
  have hmc : pool.components.getLast? = some mc := by
    rw [List.getLast?_eq_getElem?, hpar]
    exact hmcget
  have hsmoved : pool.all_entities[moved.id]? = some (some (L - 1)) :=
    hinv4 (L - 1) moved hmovedget
  have hidlt : e.id < pool.all_entities.length := lt_length_of_getElem? hs
  have hmovedlt : moved.id < pool.all_entities.length := lt_length_of_getElem? hsmoved
  have hne_id : moved.id ≠ e.id := by
    intro hc
    rw [hc, hs] at hsmoved
    simp only [Option.some_inj] at hsmoved
    omega
  set pool' : ComponentPool (V k) :=
    ⟨(pool.all_entities.set moved.id (some d)).set e.id none,
      (pool.entities_with_component.set d moved).dropLast,
      (pool.components.set d mc).dropLast⟩ with hpool'
  have hrem : w.remove_component k e = some (Except.ok
      { w with component_pools := Function.update w.component_pools k (some pool') }) := by
    unfold World.remove_component
    rw [if_pos hv, hp]
    dsimp only
    rw [hs]
    dsimp only
    rw [hmoved, hmc]
  have hp'k : Function.update w.component_pools k (some pool') k = some pool' :=
    Function.update_same k (some pool') w.component_pools
  have hdense'd : pool'.entities_with_component[d]? = some moved := by
    show ((pool.entities_with_component.set d moved).dropLast)[d]? = some moved
    rw [list_getElem?_dropLast _ _ (by rw [List.length_set]; omega)]
    exact List.getElem?_set_eq_of_lt _ (by omega)
  have hcomp'd : pool'.components[d]? = some mc := by
    show ((pool.components.set d mc).dropLast)[d]? = some mc
    have hcl : pool.components.length = L := by rw [hpar]
    rw [list_getElem?_dropLast _ _ (by rw [List.length_set]; omega)]
    exact List.getElem?_set_eq_of_lt _ (by omega)
  have hsparse'moved : pool'.all_entities[moved.id]? = some (some d) := by
    show ((pool.all_entities.set moved.id (some d)).set e.id none)[moved.id]? = some (some d)
    rw [List.getElem?_set_ne hne_id.symm]
    exact List.getElem?_set_eq_of_lt _ hmovedlt
  have hsparse'e : pool'.all_entities[e.id]? = some none := by
    show ((pool.all_entities.set moved.id (some d)).set e.id none)[e.id]? = some none
    exact List.getElem?_set_eq_of_lt _ (by rw [List.length_set]; exact hidlt)
  have hlen' : pool'.entities_with_component.length = L - 1 := by
    show ((pool.entities_with_component.set d moved).dropLast).length = L - 1
    rw [List.length_dropLast, List.length_set]
  refine ⟨_, pool', moved, mc, hmoved, hmc, hrem, hp'k, hlen', ?_, hdense'd, hcomp'd,
    hsparse'moved, hsparse'e, ?_, ?_⟩
  · show ((pool.components.set d mc).dropLast).length = pool.components.length - 1
    rw [List.length_dropLast, List.length_set]
  · intro i dd h
    rw [hlen']
    by_cases hie : i = e.id
    · subst hie
      rw [hsparse'e] at h
      simp at h
    · have h1 : pool'.all_entities[i]? =
          (pool.all_entities.set moved.id (some d))[i]? := by
        show ((pool.all_entities.set moved.id (some d)).set e.id none)[i]? = _
        exact List.getElem?_set_ne (fun hc => hie hc.symm)
      by_cases him : i = moved.id
      · subst him
        rw [h1, List.getElem?_set_eq_of_lt _ hmovedlt] at h
        simp only [Option.some_inj] at h
        omega
      · rw [h1, List.getElem?_set_ne (fun hc => him hc.symm)] at h
        obtain ⟨e2, he2, hid2⟩ := hinv3 i dd h
        have hddlt : dd < L := lt_length_of_getElem? he2
        have hddne : dd ≠ d := by
          intro hc
          obtain ⟨e0, he0, hid0⟩ := hinv3 e.id d hs
          have heq : e2 = e0 := getElem?_some_unique (hc ▸ he2) he0
          exact hie (by rw [← hid2, heq, hid0])
        have hddnl : dd ≠ L - 1 := by
          intro hc
          have heq : e2 = moved := getElem?_some_unique (hc ▸ he2) hmovedget
          exact him (by rw [← hid2, heq])
        omega
  · intro e' v hne hval hget
    obtain ⟨_, poolx, d', hpx, hs', hc'⟩ := World.get_component_inv hget
    rw [hp] at hpx
    obtain rfl := Option.some_inj.mp hpx
    have hne_id' : e'.id ≠ e.id := fun hc =>
      hne (EntityAllocator.eq_of_valid_of_id_eq hval hv hc)
    have hd'lt : d' < L := by
      obtain ⟨e2, he2, _⟩ := hinv3 e'.id d' hs'
      exact lt_length_of_getElem? he2
    have hd'ne : d' ≠ d := by
      intro hc
      obtain ⟨e2, he2, hid2⟩ := hinv3 e'.id d' hs'
      obtain ⟨e0, he0, hid0⟩ := hinv3 e.id d hs
      have heq : e2 = e0 := getElem?_some_unique (hc ▸ he2) he0
      exact hne_id' (by rw [← hid2, heq, hid0])
    by_cases him : e'.id = moved.id
    · -- e' is the moved object: its slot now names d, holding the old last value
      have hd'eq : d' = L - 1 := by
        rw [him, hsmoved] at hs'
        simp only [Option.some_inj] at hs'
        omega
      have hveq : v = mc := by
        rw [hd'eq, hmcget] at hc'
        simp only [Option.some_inj] at hc'
        exact hc'.symm
      subst hveq
      refine World.get_component_of_parts hval ?_ ?_ hcomp'd
      · exact hp'k
      · rw [him]
        exact hsparse'moved
    · -- untouched object: slot and value carried over
      have hslot' : pool'.all_entities[e'.id]? = some (some d') := by
        show ((pool.all_entities.set moved.id (some d)).set e.id none)[e'.id]? = _
        rw [List.getElem?_set_ne (fun hc => hne_id' hc.symm),
          List.getElem?_set_ne (fun hc => him hc.symm)]
        exact hs'
      have hd'nl : d' ≠ L - 1 := by
        intro hc
        obtain ⟨e2, he2, hid2⟩ := hinv3 e'.id d' hs'
        have heq : e2 = moved := getElem?_some_unique (hc ▸ he2) hmovedget
        exact him (by rw [← hid2, heq])
      have hcomp' : pool'.components[d']? = some v := by
        show ((pool.components.set d mc).dropLast)[d']? = some v
        have hcl : pool.components.length = L := by rw [hpar]
        rw [list_getElem?_dropLast _ _ (by rw [List.length_set]; omega),
          List.getElem?_set_ne hd'ne.symm]
        exact hc'
      exact World.get_component_of_parts hval hp'k hslot' hcomp'

theorem c6_pool_WF : ComponentPool.WF 3
    (⟨[some 0, some 1, some 2], [⟨0, 0⟩, ⟨1, 0⟩, ⟨2, 0⟩], [100, 101, 102]⟩ :
      ComponentPool Nat) := by
  refine ⟨rfl, rfl, ?_, ?_⟩
  · intro i d h
    have hi : i < 3 := by simpa using lt_length_of_getElem? h
    interval_cases i
    · simp only [List.getElem?_cons_zero, Option.some_inj] at h
      subst h
      exact ⟨⟨0, 0⟩, rfl, rfl⟩
    · simp only [List.getElem?_cons_succ, List.getElem?_cons_zero, Option.some_inj] at h
      subst h
      exact ⟨⟨1, 0⟩, rfl, rfl⟩
    · simp only [List.getElem?_cons_succ, List.getElem?_cons_zero, Option.some_inj] at h
      subst h
      exact ⟨⟨2, 0⟩, rfl, rfl⟩
  · intro d e' h
    have hd : d < 3 := by simpa using lt_length_of_getElem? h
    interval_cases d
    · simp only [List.getElem?_cons_zero, Option.some_inj] at h
      subst h
      rfl
    · simp only [List.getElem?_cons_succ, List.getElem?_cons_zero, Option.some_inj] at h
      subst h
      rfl
    · simp only [List.getElem?_cons_succ, List.getElem?_cons_zero, Option.some_inj] at h
      subst h
      rfl

/-- Witness for `C6_swap_remove`: three objects holding the component in
dense order `[o0, o1, o2]`; removing `o0`'s component. -/
theorem C6_swap_remove_witness :
    (⟨⟨[⟨true, 0⟩, ⟨true, 0⟩, ⟨true, 0⟩], []⟩,
      fun _ => some ⟨[some 0, some 1, some 2], [⟨0, 0⟩, ⟨1, 0⟩, ⟨2, 0⟩], [100, 101, 102]⟩⟩ :
      World Unit (fun _ => Nat)).component_pools () =
        some ⟨[some 0, some 1, some 2], [⟨0, 0⟩, ⟨1, 0⟩, ⟨2, 0⟩], [100, 101, 102]⟩ ∧
    (⟨⟨[⟨true, 0⟩, ⟨true, 0⟩, ⟨true, 0⟩], []⟩,
      fun _ => some ⟨[some 0, some 1, some 2], [⟨0, 0⟩, ⟨1, 0⟩, ⟨2, 0⟩], [100, 101, 102]⟩⟩ :
      World Unit (fun _ => Nat)).entity_allocator.is_valid ⟨0, 0⟩ = true ∧
    (⟨[some 0, some 1, some 2], [⟨0, 0⟩, ⟨1, 0⟩, ⟨2, 0⟩], [100, 101, 102]⟩ :
      ComponentPool Nat).all_entities[(⟨0, 0⟩ : Entity).id]? = some (some 0) ∧
    0 + 1 < (⟨[some 0, some 1, some 2], [⟨0, 0⟩, ⟨1, 0⟩, ⟨2, 0⟩], [100, 101, 102]⟩ :
      ComponentPool Nat).entities_with_component.length ∧
    (∃ (w' : World Unit (fun _ => Nat)) (pool' : ComponentPool Nat)
        (moved : Entity) (mc : Nat),
      (⟨[some 0, some 1, some 2], [⟨0, 0⟩, ⟨1, 0⟩, ⟨2, 0⟩], [100, 101, 102]⟩ :
        ComponentPool Nat).entities_with_component.getLast? = some moved ∧
      (⟨[some 0, some 1, some 2], [⟨0, 0⟩, ⟨1, 0⟩, ⟨2, 0⟩], [100, 101, 102]⟩ :
        ComponentPool Nat).components.getLast? = some mc ∧
      (⟨⟨[⟨true, 0⟩, ⟨true, 0⟩, ⟨true, 0⟩], []⟩,
        fun _ => some ⟨[some 0, some 1, some 2], [⟨0, 0⟩, ⟨1, 0⟩, ⟨2, 0⟩], [100, 101, 102]⟩⟩ :
        World Unit (fun _ => Nat)).remove_component () ⟨0, 0⟩ = some (Except.ok w') ∧
      w'.component_pools () = some pool' ∧
      pool'.entities_with_component.length =
        (⟨[some 0, some 1, some 2], [⟨0, 0⟩, ⟨1, 0⟩, ⟨2, 0⟩], [100, 101, 102]⟩ :
          ComponentPool Nat).entities_with_component.length - 1 ∧
      pool'.components.length =
        (⟨[some 0, some 1, some 2], [⟨0, 0⟩, ⟨1, 0⟩, ⟨2, 0⟩], [100, 101, 102]⟩ :
          ComponentPool Nat).components.length - 1 ∧
      pool'.entities_with_component[(0 : Nat)]? = some moved ∧
      pool'.components[(0 : Nat)]? = some mc ∧
      pool'.all_entities[moved.id]? = some (some 0) ∧
      pool'.all_entities[(⟨0, 0⟩ : Entity).id]? = some none ∧
      (∀ i dd : Nat, pool'.all_entities[i]? = some (some dd) →
        dd < pool'.entities_with_component.length) ∧
      (∀ (e' : Entity) (v : Nat), e' ≠ ⟨0, 0⟩ →
        (⟨⟨[⟨true, 0⟩, ⟨true, 0⟩, ⟨true, 0⟩], []⟩,
          fun _ => some ⟨[some 0, some 1, some 2], [⟨0, 0⟩, ⟨1, 0⟩, ⟨2, 0⟩],
            [100, 101, 102]⟩⟩ :
          World Unit (fun _ => Nat)).entity_allocator.is_valid e' = true →
        (⟨⟨[⟨true, 0⟩, ⟨true, 0⟩, ⟨true, 0⟩], []⟩,
          fun _ => some ⟨[some 0, some 1, some 2], [⟨0, 0⟩, ⟨1, 0⟩, ⟨2, 0⟩],
            [100, 101, 102]⟩⟩ :
          World Unit (fun _ => Nat)).get_component () e' = some (Except.ok (some v)) →
        w'.get_component () e' = some (Except.ok (some v)))) :=
  ⟨rfl, rfl, by decide, by decide,
    C6_swap_remove
      (⟨⟨[⟨true, 0⟩, ⟨true, 0⟩, ⟨true, 0⟩], []⟩,
        fun _ => some ⟨[some 0, some 1, some 2], [⟨0, 0⟩, ⟨1, 0⟩, ⟨2, 0⟩], [100, 101, 102]⟩⟩ :
        World Unit (fun _ => Nat)) () ⟨0, 0⟩
      ⟨[some 0, some 1, some 2], [⟨0, 0⟩, ⟨1, 0⟩, ⟨2, 0⟩], [100, 101, 102]⟩ 0
      rfl c6_pool_WF rfl (by decide) (by decide)⟩

/-! ### The well-formedness predicates are invariants of the operations -/

/-- The empty allocator is well-formed. -/
theorem EntityAllocator.WF_init : EntityAllocator.new.WF := by
  intro id hid
  cases hid

/-- `allocate` preserves the allocator invariant. -/
theorem EntityAllocator.WF_allocate {a : EntityAllocator} {e : Entity}
    {a' : EntityAllocator} (hWF : a.WF) (h : a.allocate = some (e, a')) : a'.WF := by
  unfold EntityAllocator.allocate at h
  cases hlast : a.available_entity_ids.getLast? with
  | some rid =>
      rw [hlast] at h
      dsimp only at h
      cases hget : a.entries[rid]? with
      | none => rw [hget] at h; simp at h
      | some entry =>
          rw [hget] at h
          simp only [Option.some_inj, Prod.mk.injEq] at h
          obtain ⟨-, rfl⟩ := h
          intro id hid
          rw [List.length_set]
          exact hWF id (List.dropLast_subset _ hid)
  | none =>
      rw [hlast] at h
      dsimp only at h
      simp only [Option.some_inj, Prod.mk.injEq] at h
      obtain ⟨-, rfl⟩ := h
      intro id hid
      rw [List.length_append]
      exact Nat.lt_of_lt_of_le (hWF id hid) (Nat.le_add_right _ _)

/-- `deallocate` preserves the allocator invariant. -/
theorem EntityAllocator.WF_deallocate {a : EntityAllocator} {e : Entity}
    {a' : EntityAllocator} (hWF : a.WF) (h : a.deallocate e = Except.ok a') : a'.WF := by
  unfold EntityAllocator.deallocate at h
  cases hget : a.entries[e.id]? with
  | none => rw [hget] at h; simp at h
  | some entry =>
      rw [hget] at h
      dsimp only at h
      simp only [Except.ok.injEq] at h
      subst h
      intro id hid
      rw [List.length_set]
      rcases List.mem_append.mp hid with hold | hnew
      · exact hWF id hold
      · rw [List.mem_singleton.mp hnew]
        exact lt_length_of_getElem? hget

/-- A freshly registered pool satisfies the pool invariant. -/
theorem ComponentPool.WF_registered {V : Type} (n : Nat) :
    ComponentPool.WF n (⟨List.replicate n none, [], []⟩ : ComponentPool V) := by
  refine ⟨List.length_replicate n none, rfl, ?_, ?_⟩
  · intro i d h
    exfalso
    rw [show (⟨List.replicate n none, [], []⟩ : ComponentPool V).all_entities
      = List.replicate n none from rfl] at h
    rw [List.getElem?_replicate] at h
    by_cases hi : i < n
    · rw [if_pos hi] at h; simp at h
    · rw [if_neg hi] at h; simp at h
  · intro d e h
    cases h

/-- The pool produced by the append branch of `add_component` keeps the
pool invariant. -/
theorem ComponentPool.WF_append {V : Type} {n : Nat} {pool : ComponentPool V}
    {e : Entity} (v : V) (hWF : pool.WF n)
    (hs : pool.all_entities[e.id]? = some none) :
    ComponentPool.WF n
      (⟨pool.all_entities.set e.id (some pool.entities_with_component.length),
        pool.entities_with_component ++ [e], pool.components ++ [v]⟩ :
        ComponentPool V) := by
  obtain ⟨h1, h2, h3, h4⟩ := hWF
  have hidlt : e.id < pool.all_entities.length := lt_length_of_getElem? hs
  refine ⟨by rw [List.length_set, h1], by simp [h2], ?_, ?_⟩
  · intro i d h
    by_cases hie : i = e.id
    · subst hie
      rw [show (⟨pool.all_entities.set e.id (some pool.entities_with_component.length),
          pool.entities_with_component ++ [e], pool.components ++ [v]⟩ :
          ComponentPool V).all_entities
        = pool.all_entities.set e.id (some pool.entities_with_component.length) from rfl,
        List.getElem?_set_eq_of_lt _ hidlt] at h
      simp only [Option.some_inj] at h
      subst h
      exact ⟨e, List.getElem?_concat_length _ _, rfl⟩
    · rw [show (⟨pool.all_entities.set e.id (some pool.entities_with_component.length),
          pool.entities_with_component ++ [e], pool.components ++ [v]⟩ :
          ComponentPool V).all_entities
        = pool.all_entities.set e.id (some pool.entities_with_component.length) from rfl,
        List.getElem?_set_ne (fun hc => hie hc.symm)] at h
      obtain ⟨e2, he2, hid2⟩ := h3 i d h
      exact ⟨e2,
        by rw [show (⟨pool.all_entities.set e.id (some pool.entities_with_component.length),
            pool.entities_with_component ++ [e], pool.components ++ [v]⟩ :
            ComponentPool V).entities_with_component
          = pool.entities_with_component ++ [e] from rfl,
          List.getElem?_append_left (lt_length_of_getElem? he2)]; exact he2, hid2⟩
  · intro d e2 h
    rw [show (⟨pool.all_entities.set e.id (some pool.entities_with_component.length),
        pool.entities_with_component ++ [e], pool.components ++ [v]⟩ :
        ComponentPool V).entities_with_component
      = pool.entities_with_component ++ [e] from rfl] at h
    by_cases hdl : d < pool.entities_with_component.length
    · rw [List.getElem?_append_left hdl] at h
      have h4' := h4 d e2 h
      have hne : e2.id ≠ e.id := by
        intro hc
        rw [hc, hs] at h4'
        simp at h4'
      show (pool.all_entities.set e.id (some pool.entities_with_component.length))[e2.id]?
        = some (some d)
      rw [List.getElem?_set_ne (fun hc => hne hc.symm)]
      exact h4'
    · have hlen2 : d < (pool.entities_with_component ++ [e]).length :=
        lt_length_of_getElem? h
      have hdeq : d = pool.entities_with_component.length := by
        rw [List.length_append, List.length_singleton] at hlen2
        omega
      subst hdeq
      rw [List.getElem?_concat_length] at h
      simp only [Option.some_inj] at h
      subst h
      show (pool.all_entities.set e.id (some pool.entities_with_component.length))[e.id]?
        = some (some pool.entities_with_component.length)
      exact List.getElem?_set_eq_of_lt _ hidlt

/-- Registering an already-covered index leaves the pool untouched. -/
theorem ComponentPool.WF_register_reuse {V : Type} {n : Nat} {p : ComponentPool V}
    (hWF : p.WF n) {e : Entity} (he : e.id < p.all_entities.length) :
    (p.register_entity e).WF n := by
  unfold ComponentPool.register_entity
  rw [if_neg (Nat.not_le_of_lt he)]
  exact hWF

/-- Registering the next fresh index grows the sparse array by one unset
slot and keeps the pool invariant at the grown entry count. -/
theorem ComponentPool.WF_register_fresh {V : Type} {n : Nat} {p : ComponentPool V}
    (hWF : p.WF n) {e : Entity} (he : e.id = n) :
    (p.register_entity e).WF (n + 1) := by
  obtain ⟨h1, h2, h3, h4⟩ := hWF
  unfold ComponentPool.register_entity
  rw [if_pos (by rw [h1, he])]
  refine ⟨?_, h2, ?_, ?_⟩
  · rw [List.length_append, List.length_replicate, h1, he]
    omega
  · intro i d h
    by_cases hi : i < p.all_entities.length
    · rw [show ({ p with all_entities :=
          p.all_entities ++ List.replicate (e.id + 1 - p.all_entities.length) none } :
          ComponentPool V).all_entities
        = p.all_entities ++ List.replicate (e.id + 1 - p.all_entities.length) none from rfl,
        List.getElem?_append_left hi] at h
      exact h3 i d h
    · rw [show ({ p with all_entities :=
          p.all_entities ++ List.replicate (e.id + 1 - p.all_entities.length) none } :
          ComponentPool V).all_entities
        = p.all_entities ++ List.replicate (e.id + 1 - p.all_entities.length) none from rfl,
        List.getElem?_append_right (Nat.le_of_not_lt hi), List.getElem?_replicate] at h
      by_cases hlt : i - p.all_entities.length < e.id + 1 - p.all_entities.length
      · rw [if_pos hlt] at h; simp at h
      · rw [if_neg hlt] at h; simp at h
  · intro d e2 h
    have h4' := h4 d e2 h
    show (p.all_entities ++ List.replicate (e.id + 1 - p.all_entities.length) none)[e2.id]?
      = some (some d)
    rw [List.getElem?_append_left (lt_length_of_getElem? h4')]
    exact h4'

/-- `deallocate` never changes the number of issued indices. -/
theorem EntityAllocator.deallocate_length {a : EntityAllocator} {e : Entity}
    {a' : EntityAllocator} (h : a.deallocate e = Except.ok a') :
    a'.entries.length = a.entries.length := by
  unfold EntityAllocator.deallocate at h
  cases hget : a.entries[e.id]? with
  | none => rw [hget] at h; simp at h
  | some entry =>
      rw [hget] at h
      dsimp only at h
      simp only [Except.ok.injEq] at h
      subst h
      exact List.length_set _ _ _

/-- The empty world is well-formed. -/
theorem World.WF_initial {κ : Type} {V : κ → Type} : (World.new κ V).WF :=
  ⟨EntityAllocator.WF_init, fun _ _ h => by cases h⟩

/-- `register_component` preserves the world invariant. -/
theorem World.WF_register {κ : Type} {V : κ → Type} [DecidableEq κ]
    {w : World κ V} (hWF : w.WF) (k : κ) : (w.register_component k).WF := by
  obtain ⟨ha, hp⟩ := hWF
  refine ⟨ha, ?_⟩
  intro k' p h
  unfold World.register_component at h
  dsimp only at h
  by_cases hk : k' = k
  · subst hk
    rw [Function.update_same] at h
    simp only [Option.some_inj] at h
    subst h
    exact ComponentPool.WF_registered _
  · rw [Function.update_noteq hk] at h
    exact hp k' p h

/-- `destroy_entity` preserves the world invariant. -/
theorem World.WF_destroy {κ : Type} {V : κ → Type} [DecidableEq κ]
    {w : World κ V} (hWF : w.WF) (e : Entity) : (w.destroy_entity e).WF := by
  obtain ⟨ha, hp⟩ := hWF
  unfold World.destroy_entity
  cases h : w.entity_allocator.deallocate e with
  | ok a' =>
      refine ⟨EntityAllocator.WF_deallocate ha h, ?_⟩
      intro k p hpk
      have := hp k p hpk
      unfold EntityAllocator.get_num_entries at this ⊢
      rw [show ({ w with entity_allocator := a' } : World κ V).entity_allocator
        = a' from rfl, EntityAllocator.deallocate_length h]
      exact this
  | error _ => exact ⟨ha, hp⟩

/-- `add_component` preserves the world invariant. -/
theorem World.WF_add_component {κ : Type} {V : κ → Type} [DecidableEq κ]
    {w : World κ V} {k : κ} {e : Entity} {v : V k} {w' : World κ V}
    (hWF : w.WF) (h : w.add_component k e v = some (Except.ok w')) : w'.WF := by
  obtain ⟨ha, hp⟩ := hWF
  unfold World.add_component at h
  by_cases hv : w.entity_allocator.is_valid e = true
  · rw [if_pos hv] at h
    cases hpk : w.component_pools k with
    | none => rw [hpk] at h; simp at h
    | some pool =>
        rw [hpk] at h
        dsimp only at h
        cases hs : pool.all_entities[e.id]? with
        | none => rw [hs] at h; simp at h
        | some o =>
            rw [hs] at h
            cases o with
            | some d =>
                simp only [Option.some_inj, Except.ok.injEq] at h
                subst h
                exact ⟨ha, hp⟩
            | none =>
                simp only [Option.some_inj, Except.ok.injEq] at h
                subst h
                refine ⟨ha, ?_⟩
                intro k' p hpk'
                dsimp only at hpk' ⊢
                by_cases hk : k' = k
                · subst hk
                  rw [Function.update_same] at hpk'
                  simp only [Option.some_inj] at hpk'
                  subst hpk'
                  have hidx : (pool.entities_with_component ++ [e]).length - 1 =
                      pool.entities_with_component.length := by
                    rw [List.length_append, List.length_singleton]
                    omega
                  rw [hidx]
                  exact ComponentPool.WF_append v (hp k' pool hpk) hs
                · rw [Function.update_noteq hk] at hpk'
                  exact hp k' p hpk'
  · rw [if_neg hv] at h
    simp at h

/-- `create_entity` preserves the world invariant as long as fewer than
`2 ^ 16` indices have been issued (beyond that the 16-bit index truncation
breaks the correspondence between pools and the allocator, see the C2
counterexample). -/
theorem World.WF_create {κ : Type} {V : κ → Type} [DecidableEq κ]
    {w : World κ V} {e : Entity} {w' : World κ V}
    (hWF : w.WF) (hbound : w.entity_allocator.entries.length < 2 ^ 16)
    (h : w.create_entity = some (e, w')) : w'.WF := by
  obtain ⟨ha, hp⟩ := hWF
  unfold World.create_entity at h
  cases halloc : w.entity_allocator.allocate with
  | none => rw [halloc] at h; simp at h
  | some ea =>
      obtain ⟨e0, a'⟩ := ea
      rw [halloc] at h
      simp only [Option.map_some', Option.some_inj, Prod.mk.injEq] at h
      obtain ⟨rfl, rfl⟩ := h
      refine ⟨EntityAllocator.WF_allocate ha halloc, ?_⟩
      intro k p hpk
      dsimp only at hpk ⊢
      cases hporig : w.component_pools k with
      | none => rw [hporig] at hpk; simp at hpk
      | some p0 =>
          rw [hporig] at hpk
          simp only [Option.map_some', Option.some_inj] at hpk
          subst hpk
          have hWp0 := hp k p0 hporig
          have hl1 : p0.all_entities.length = w.entity_allocator.entries.length :=
            hWp0.1
          unfold EntityAllocator.allocate at halloc
          cases hlast : w.entity_allocator.available_entity_ids.getLast? with
          | some rid =>
              rw [hlast] at halloc
              dsimp only at halloc
              cases hget : w.entity_allocator.entries[rid]? with
              | none => rw [hget] at halloc; simp at halloc
              | some entry =>
                  rw [hget] at halloc
                  simp only [Option.some_inj, Prod.mk.injEq] at halloc
                  obtain ⟨rfl, rfl⟩ := halloc
                  have hrid : rid < w.entity_allocator.entries.length :=
                    ha rid (List.mem_of_mem_getLast? hlast)
                  have hnum : (⟨w.entity_allocator.entries.set rid
                        ⟨true, (entry.generation + 1) % 2 ^ 64⟩,
                      w.entity_allocator.available_entity_ids.dropLast⟩ :
                      EntityAllocator).get_num_entries =
                      w.entity_allocator.entries.length := by
                    unfold EntityAllocator.get_num_entries
                    exact List.length_set _ _ _
                  rw [hnum]
                  exact ComponentPool.WF_register_reuse hWp0 (by rw [hl1]; exact hrid)
          | none =>
              rw [hlast] at halloc
              dsimp only at halloc
              simp only [Option.some_inj, Prod.mk.injEq] at halloc
              obtain ⟨rfl, rfl⟩ := halloc
              have hid : ((w.entity_allocator.entries ++
                  [({ is_alive := true, generation := 0 } :
                    EntityAllocatorEntry)]).length - 1) % 2 ^ 16 =
                  w.entity_allocator.entries.length := by
                rw [List.length_append, List.length_singleton]
                rw [show w.entity_allocator.entries.length + 1 - 1 =
                  w.entity_allocator.entries.length from by omega]
                exact Nat.mod_eq_of_lt hbound
              have hnum : (⟨w.entity_allocator.entries ++
                    [({ is_alive := true, generation := 0 } : EntityAllocatorEntry)],
                  w.entity_allocator.available_entity_ids⟩ :
                  EntityAllocator).get_num_entries =
                  w.entity_allocator.entries.length + 1 := by
                unfold EntityAllocator.get_num_entries
                rw [List.length_append, List.length_singleton]
              rw [hnum]
              have he0 : (⟨((w.entity_allocator.entries ++
                  [({ is_alive := true, generation := 0 } : EntityAllocatorEntry)]).length
                    - 1) % 2 ^ 16, 0⟩ : Entity).id =
                  w.entity_allocator.get_num_entries := hid
              exact ComponentPool.WF_register_fresh hWp0 he0
